import Mathlib

/-!
Verification of the etch core orchestration process (screen-share /
live-annotation media engine) against its natural-language specification.

The Rust sources are shallowly embedded: pure state manipulation becomes
Lean functions on explicit state records, the capture worker's
failure/recovery logic becomes a step function driven by an input trace,
and the IPC wire protocol is modelled on a JSON value tree.  Machine
integers that never overflow in the modelled scenarios are taken as `Nat`;
`f32` wire coordinates are represented by `Rat` (no claim depends on
floating-point rounding).
-/

set_option autoImplicit false

namespace Etch

/-! ## Basic data types (packages/core/src/lib.rs) -/

/-- `AnnotationTool` from lib.rs (serde snake_case: pen / highlighter / eraser). -/
inductive AnnotationTool where
  | pen
  | highlighter
  | eraser
deriving DecidableEq

/-- `Color` from lib.rs: rgba8 components (u8 modelled as `Nat`, range enforced
at the JSON boundary). -/
structure Color where
  r : Nat
  g : Nat
  b : Nat
  a : Nat
deriving DecidableEq

/-- `Point` from lib.rs: normalized coordinates plus pressure (f32 modelled as `Rat`). -/
structure Point where
  x : Rat
  y : Rat
  pressure : Rat
deriving DecidableEq

/-! ## Annotation store (packages/core/src/annotation/mod.rs) -/

/-- `Stroke` from annotation/mod.rs. -/
structure Stroke where
  id : String
  participant_id : String
  tool : AnnotationTool
  color : Color
  points : List Point
  completed : Bool
deriving DecidableEq

/-- `Stroke::new`: a fresh stroke holding just the start point, not completed. -/
def Stroke.new (id participant_id : String) (tool : AnnotationTool) (color : Color)
    (start_point : Point) : Stroke :=
  ⟨id, participant_id, tool, color, [start_point], false⟩

/-- `Stroke::add_points`: extend the point list. -/
def Stroke.add_points (s : Stroke) (ps : List Point) : Stroke :=
  { s with points := s.points ++ ps }

/-- `Stroke::complete`: mark finished. -/
def Stroke.complete (s : Stroke) : Stroke :=
  { s with completed := true }

/-- Lookup in the stroke map (`HashMap<String, Stroke>` modelled as an
association list with unique keys; `HashMap::get`). -/
def mapGet (k : String) : List (String × Stroke) → Option Stroke
  | [] => none
  | e :: rest => if e.1 = k then some e.2 else mapGet k rest

/-- Removal of a key (`HashMap::remove`); drops every entry with key `k`
(at most one, since keys are unique in reachable stores). -/
def mapRemove (k : String) : List (String × Stroke) → List (String × Stroke)
  | [] => []
  | e :: rest => if e.1 = k then mapRemove k rest else e :: mapRemove k rest

/-- `HashMap::insert`: replaces any entry with key `k`.  A hash map has no
meaningful iteration order, so placing the new entry at the end is a faithful
model. -/
def mapInsert (k : String) (v : Stroke) (m : List (String × Stroke)) :
    List (String × Stroke) :=
  mapRemove k m ++ [(k, v)]

/-- `AnnotationStore` from annotation/mod.rs: stroke map plus render-order id
list (oldest first). -/
structure AnnotationStore where
  strokes : List (String × Stroke)
  stroke_order : List String
deriving DecidableEq

/-- `AnnotationStore::new`. -/
def AnnotationStore.new : AnnotationStore :=
  ⟨[], []⟩

/-- `AnnotationStore::start_stroke`: insert the fresh stroke into the map and
push its id onto the render order. -/
def AnnotationStore.start_stroke (st : AnnotationStore) (stroke_id participant_id : String)
    (tool : AnnotationTool) (color : Color) (start_point : Point) : AnnotationStore :=
  { st with
    strokes := mapInsert stroke_id
      (Stroke.new stroke_id participant_id tool color start_point) st.strokes,
    stroke_order := st.stroke_order ++ [stroke_id] }

/-- `AnnotationStore::update_stroke`: append points to an existing stroke,
no-op on an unknown id. -/
def AnnotationStore.update_stroke (st : AnnotationStore) (stroke_id : String)
    (points : List Point) : AnnotationStore :=
  match mapGet stroke_id st.strokes with
  | some s => { st with strokes := mapInsert stroke_id (s.add_points points) st.strokes }
  | none => st

/-- `AnnotationStore::complete_stroke`. -/
def AnnotationStore.complete_stroke (st : AnnotationStore) (stroke_id : String) :
    AnnotationStore :=
  match mapGet stroke_id st.strokes with
  | some s => { st with strokes := mapInsert stroke_id s.complete st.strokes }
  | none => st

/-- Retain on the order list (`stroke_order.retain(|id| id != stroke_id)`). -/
def orderRemove (sid : String) : List String → List String
  | [] => []
  | i :: rest => if i = sid then orderRemove sid rest else i :: orderRemove sid rest

/-- `AnnotationStore::delete_stroke`: remove from the map and drop every
occurrence of the id from the render order. -/
def AnnotationStore.delete_stroke (st : AnnotationStore) (stroke_id : String) :
    AnnotationStore :=
  { st with
    strokes := mapRemove stroke_id st.strokes,
    stroke_order := orderRemove stroke_id st.stroke_order }

/-- `AnnotationStore::clear_all`. -/
def AnnotationStore.clear_all (_st : AnnotationStore) : AnnotationStore :=
  ⟨[], []⟩

/-- `AnnotationStore::strokes()`: iterate the order list, looking each id up
in the map (ids without a map entry are skipped by `filter_map`). -/
def AnnotationStore.strokesList (st : AnnotationStore) : List Stroke :=
  st.stroke_order.filterMap (fun id => mapGet id st.strokes)

/-- `AnnotationStore::len()`: number of map entries. -/
def AnnotationStore.lenStore (st : AnnotationStore) : Nat :=
  st.strokes.length

/-- `AnnotationStore::get`. -/
def AnnotationStore.get (st : AnnotationStore) (stroke_id : String) : Option Stroke :=
  mapGet stroke_id st.strokes

/-- The ids `delete_by_participant` collects: keys of map entries whose stroke
is owned by the given participant. -/
def keysOfParticipant (participant_id : String) : List (String × Stroke) → List String
  | [] => []
  | e :: rest =>
    if e.2.participant_id = participant_id then e.1 :: keysOfParticipant participant_id rest
    else keysOfParticipant participant_id rest

/-- `AnnotationStore::delete_by_participant`: collect the ids owned by the
participant, then delete each in turn. -/
def AnnotationStore.delete_by_participant (st : AnnotationStore) (participant_id : String) :
    AnnotationStore :=
  (keysOfParticipant participant_id st.strokes).foldl
    (fun acc id => acc.delete_stroke id) st

/-! ## Operation sequences over the store (claims C3, C9) -/

/-- One public operation on the annotation store. -/
inductive StoreOp where
  | start (stroke_id participant_id : String) (tool : AnnotationTool) (color : Color)
      (start_point : Point)
  | update (stroke_id : String) (points : List Point)
  | complete (stroke_id : String)
  | delete (stroke_id : String)
  | clear
  | deleteByParticipant (participant_id : String)

/-- Apply one operation (dispatching to the store methods above). -/
def applyOp (st : AnnotationStore) : StoreOp → AnnotationStore
  | StoreOp.start sid pid tool color p => st.start_stroke sid pid tool color p
  | StoreOp.update sid ps => st.update_stroke sid ps
  | StoreOp.complete sid => st.complete_stroke sid
  | StoreOp.delete sid => st.delete_stroke sid
  | StoreOp.clear => st.clear_all
  | StoreOp.deleteByParticipant pid => st.delete_by_participant pid

/-- Apply a whole operation sequence starting from the empty store. -/
def applyOps (ops : List StoreOp) : AnnotationStore :=
  ops.foldl applyOp AnnotationStore.new

/-- Specification-side render order, written from the spec's words: each
`start` appends the id to the creation order (a restarted id is owned by its
latest author), deleting an id removes it from the order, `clear` empties it,
and deleting by author removes the strokes that author currently owns.  Only
(id, author) pairs are tracked — exactly what "creation order minus deletions"
needs. -/
def specStep (l : List (String × String)) : StoreOp → List (String × String)
  | StoreOp.start sid pid _ _ _ =>
      (l.map (fun e => if e.1 = sid then (sid, pid) else e)) ++ [(sid, pid)]
  | StoreOp.update _ _ => l
  | StoreOp.complete _ => l
  | StoreOp.delete sid => l.filter (fun e => e.1 ≠ sid)
  | StoreOp.clear => []
  | StoreOp.deleteByParticipant pid => l.filter (fun e => e.2 ≠ pid)

/-- Run the specification-side order over an operation sequence. -/
def specRun (ops : List StoreOp) : List (String × String) :=
  ops.foldl specStep []

/-! ### Lemmas on the map primitives -/

theorem mapGet_remove_self (k : String) (m : List (String × Stroke)) :
    mapGet k (mapRemove k m) = none := by
  induction m with
  | nil => rfl
  | cons e rest ih =>
    by_cases h : e.1 = k
    · simpa [mapRemove, h] using ih
    · simpa [mapRemove, mapGet, h] using ih

theorem mapGet_remove_ne {k k' : String} (h : k' ≠ k) (m : List (String × Stroke)) :
    mapGet k' (mapRemove k m) = mapGet k' m := by
  induction m with
  | nil => rfl
  | cons e rest ih =>
    by_cases he' : e.1 = k'
    · have hek : ¬ e.1 = k := by rw [he']; exact h
      rw [show mapRemove k (e :: rest) = e :: mapRemove k rest from by
        rw [mapRemove, if_neg hek]]
      simp [mapGet, he']
    · by_cases he : e.1 = k
      · rw [he] at he'
        simpa [mapRemove, mapGet, he, he'] using ih
      · simpa [mapRemove, mapGet, he, he'] using ih

theorem mapGet_append (k : String) (m m' : List (String × Stroke)) :
    mapGet k (m ++ m') = (mapGet k m).orElse (fun _ => mapGet k m') := by
  induction m with
  | nil => simp [mapGet]
  | cons e rest ih =>
    by_cases h : e.1 = k
    · simp [mapGet, h]
    · simpa [mapGet, h] using ih

theorem mapGet_insert_self (k : String) (v : Stroke) (m : List (String × Stroke)) :
    mapGet k (mapInsert k v m) = some v := by
  simp [mapInsert, mapGet_append, mapGet_remove_self, mapGet]

theorem mapGet_insert_ne {k k' : String} (h : k' ≠ k) (v : Stroke)
    (m : List (String × Stroke)) :
    mapGet k' (mapInsert k v m) = mapGet k' m := by
  rw [mapInsert, mapGet_append, mapGet_remove_ne h]
  cases hg : mapGet k' m with
  | none => simp [mapGet, Ne.symm h]
  | some s => rfl

theorem mem_mapRemove {e : String × Stroke} {k : String} {m : List (String × Stroke)} :
    e ∈ mapRemove k m ↔ e ∈ m ∧ e.1 ≠ k := by
  induction m with
  | nil => simp [mapRemove]
  | cons f rest ih =>
    by_cases h : f.1 = k
    · rw [mapRemove]
      simp only [h, if_true, List.mem_cons, ih]
      constructor
      · exact fun hh => ⟨Or.inr hh.1, hh.2⟩
      · rintro ⟨hf | hm, hne⟩
        · exact absurd (hf ▸ h) hne
        · exact ⟨hm, hne⟩
    · rw [mapRemove]
      simp only [h, if_false, List.mem_cons, ih]
      constructor
      · rintro (hf | ⟨hm, hne⟩)
        · exact ⟨Or.inl hf, hf ▸ h⟩
        · exact ⟨Or.inr hm, hne⟩
      · rintro ⟨hf | hm, hne⟩
        · exact Or.inl hf
        · exact Or.inr ⟨hm, hne⟩

theorem mem_mapInsert {e : String × Stroke} {k : String} {v : Stroke}
    {m : List (String × Stroke)} :
    e ∈ mapInsert k v m ↔ (e ∈ m ∧ e.1 ≠ k) ∨ e = (k, v) := by
  simp [mapInsert, mem_mapRemove]

theorem mapGet_mem {k : String} {v : Stroke} {m : List (String × Stroke)}
    (h : mapGet k m = some v) : (k, v) ∈ m := by
  induction m with
  | nil => simp [mapGet] at h
  | cons e rest ih =>
    by_cases he : e.1 = k
    · rw [mapGet, if_pos he] at h
      obtain ⟨a, b⟩ := e
      obtain rfl : b = v := Option.some.inj h
      obtain rfl : a = k := he
      exact List.mem_cons_self _ _
    · rw [mapGet, if_neg he] at h
      exact List.mem_cons_of_mem _ (ih h)

theorem mem_mapGet {k : String} {v : Stroke} {m : List (String × Stroke)}
    (hu : m.Pairwise (fun a b => a.1 ≠ b.1)) (h : (k, v) ∈ m) : mapGet k m = some v := by
  induction m with
  | nil => cases h
  | cons e rest ih =>
    rcases List.mem_cons.mp h with hf | hm
    · rw [← hf, mapGet, if_pos rfl]
    · have hne : e.1 ≠ k := by
        have := (List.pairwise_cons.mp hu).1 (k, v) hm
        simpa using this
      rw [mapGet, if_neg hne]
      exact ih (List.pairwise_cons.mp hu).2 hm

theorem pairwise_mapRemove (k : String) (m : List (String × Stroke))
    (hu : m.Pairwise (fun a b => a.1 ≠ b.1)) :
    (mapRemove k m).Pairwise (fun a b => a.1 ≠ b.1) := by
  induction m with
  | nil => exact List.Pairwise.nil
  | cons e rest ih =>
    have hc := List.pairwise_cons.mp hu
    by_cases h : e.1 = k
    · rw [mapRemove, if_pos h]
      exact ih hc.2
    · rw [mapRemove, if_neg h]
      exact List.pairwise_cons.mpr
        ⟨fun f hf => hc.1 f (mem_mapRemove.mp hf).1, ih hc.2⟩

theorem pairwise_mapInsert (k : String) (v : Stroke) (m : List (String × Stroke))
    (hu : m.Pairwise (fun a b => a.1 ≠ b.1)) :
    (mapInsert k v m).Pairwise (fun a b => a.1 ≠ b.1) := by
  rw [mapInsert]
  apply List.pairwise_append.mpr
  refine ⟨pairwise_mapRemove k m hu, List.pairwise_singleton _ _, ?_⟩
  intro a ha b hb
  have hb' : b = (k, v) := by simpa using hb
  have := (mem_mapRemove.mp ha).2
  rw [hb']
  exact this

theorem mem_orderRemove {i sid : String} {l : List String} :
    i ∈ orderRemove sid l ↔ i ∈ l ∧ i ≠ sid := by
  induction l with
  | nil => simp [orderRemove]
  | cons j rest ih =>
    by_cases h : j = sid
    · rw [orderRemove, if_pos h]
      simp only [ih, List.mem_cons]
      constructor
      · exact fun hh => ⟨Or.inr hh.1, hh.2⟩
      · rintro ⟨hf | hm, hne⟩
        · exact absurd (hf.trans h) hne
        · exact ⟨hm, hne⟩
    · rw [orderRemove, if_neg h]
      simp only [List.mem_cons, ih]
      constructor
      · rintro (hf | ⟨hm, hne⟩)
        · exact ⟨Or.inl hf, hf ▸ h⟩
        · exact ⟨Or.inr hm, hne⟩
      · rintro ⟨hf | hm, hne⟩
        · exact Or.inl hf
        · exact Or.inr ⟨hm, hne⟩

/-! ### Simulation invariant between the store and the spec-side order -/

/-- The implementation store simulates the spec-side (id, author) creation
list: render order equals the listed ids, every listed entry resolves in the
map to a stroke carrying that id and author, every map entry is listed, and
map keys are unique. -/
def StoreWF (st : AnnotationStore) (l : List (String × String)) : Prop :=
  st.stroke_order = l.map Prod.fst
  ∧ (∀ e ∈ l, ∃ s, mapGet e.1 st.strokes = some s ∧ s.id = e.1 ∧ s.participant_id = e.2)
  ∧ (∀ ks ∈ st.strokes, (ks.1, ks.2.participant_id) ∈ l)
  ∧ st.strokes.Pairwise (fun a b => a.1 ≠ b.1)

theorem map_fst_remap (sid pid : String) (l : List (String × String)) :
    (l.map (fun e => if e.1 = sid then (sid, pid) else e)).map Prod.fst = l.map Prod.fst := by
  induction l with
  | nil => rfl
  | cons e rest ih =>
    by_cases h : e.1 = sid <;> simp [h, ih]

theorem storeWF_start {st : AnnotationStore} {l : List (String × String)}
    (h : StoreWF st l) (sid pid : String) (tool : AnnotationTool) (color : Color)
    (p : Point) :
    StoreWF (st.start_stroke sid pid tool color p)
      ((l.map (fun e => if e.1 = sid then (sid, pid) else e)) ++ [(sid, pid)]) := by
  obtain ⟨h1, h2, h3, h4⟩ := h
  refine ⟨?_, ?_, ?_, ?_⟩
  · simp only [AnnotationStore.start_stroke, List.map_append, map_fst_remap]
    simp [h1]
  · intro e he
    rcases List.mem_append.mp he with hl | hr
    · obtain ⟨e0, he0, heq⟩ := List.mem_map.mp hl
      by_cases h0 : e0.1 = sid
      · rw [if_pos h0] at heq
        subst heq
        exact ⟨Stroke.new sid pid tool color p,
          mapGet_insert_self sid _ st.strokes, rfl, rfl⟩
      · rw [if_neg h0] at heq
        obtain ⟨s, hs, hid, hpid⟩ := h2 e0 he0
        refine ⟨s, ?_, ?_, ?_⟩
        · rw [← heq, AnnotationStore.start_stroke]
          exact (mapGet_insert_ne h0 _ st.strokes).trans hs
        · rw [← heq]; exact hid
        · rw [← heq]; exact hpid
    · have : e = (sid, pid) := by simpa using hr
      subst this
      exact ⟨Stroke.new sid pid tool color p,
        mapGet_insert_self sid _ st.strokes, rfl, rfl⟩
  · intro ks hks
    rcases mem_mapInsert.mp hks with ⟨hmem, hne⟩ | rfl
    · refine List.mem_append.mpr (Or.inl ?_)
      refine List.mem_map.mpr ⟨(ks.1, ks.2.participant_id), h3 ks hmem, ?_⟩
      rw [if_neg hne]
    · refine List.mem_append.mpr (Or.inr ?_)
      simp [Stroke.new]
  · exact pairwise_mapInsert _ _ _ h4

/-- The shared shape of `update_stroke` and `complete_stroke`: replace the
stroke under `sid` (if any) by `f` of it. -/
def mapModifyStore (st : AnnotationStore) (sid : String) (f : Stroke → Stroke) :
    AnnotationStore :=
  match mapGet sid st.strokes with
  | some s => { st with strokes := mapInsert sid (f s) st.strokes }
  | none => st

theorem update_stroke_eq_modify (st : AnnotationStore) (sid : String) (ps : List Point) :
    st.update_stroke sid ps = mapModifyStore st sid (fun s => s.add_points ps) := by
  cases hg : mapGet sid st.strokes <;>
    simp [AnnotationStore.update_stroke, mapModifyStore, hg]

theorem complete_stroke_eq_modify (st : AnnotationStore) (sid : String) :
    st.complete_stroke sid = mapModifyStore st sid Stroke.complete := by
  cases hg : mapGet sid st.strokes <;>
    simp [AnnotationStore.complete_stroke, mapModifyStore, hg]

theorem storeWF_modify {st : AnnotationStore} {l : List (String × String)}
    (h : StoreWF st l) (sid : String) (f : Stroke → Stroke)
    (hfid : ∀ s, (f s).id = s.id)
    (hfpid : ∀ s, (f s).participant_id = s.participant_id) :
    StoreWF (mapModifyStore st sid f) l := by
  obtain ⟨h1, h2, h3, h4⟩ := h
  rw [mapModifyStore]
  cases hg : mapGet sid st.strokes with
  | none => exact ⟨h1, h2, h3, h4⟩
  | some s =>
    refine ⟨h1, ?_, ?_, pairwise_mapInsert _ _ _ h4⟩
    · intro e he
      by_cases hei : e.1 = sid
      · obtain ⟨s', hs', hid, hpid⟩ := h2 e he
        have hss : s' = s := by
          rw [hei, hg] at hs'
          exact (Option.some.inj hs').symm
        refine ⟨f s, ?_, ?_, ?_⟩
        · rw [hei]; exact mapGet_insert_self sid _ st.strokes
        · rw [hfid, ← hss, hid]
        · rw [hfpid, ← hss, hpid]
      · obtain ⟨s', hs', hid, hpid⟩ := h2 e he
        exact ⟨s', (mapGet_insert_ne hei _ st.strokes).trans hs', hid, hpid⟩
    · intro ks hks
      rcases mem_mapInsert.mp hks with ⟨hmem, _⟩ | rfl
      · exact h3 ks hmem
      · have hmem : (sid, s) ∈ st.strokes := mapGet_mem hg
        have := h3 (sid, s) hmem
        simpa [hfpid] using this

theorem orderRemove_map_fst (sid : String) (l : List (String × String)) :
    orderRemove sid (l.map Prod.fst) = (l.filter (fun e => e.1 ≠ sid)).map Prod.fst := by
  induction l with
  | nil => rfl
  | cons e rest ih =>
    by_cases h : e.1 = sid
    · simp [orderRemove, h, ih]
    · simp [orderRemove, h, ih]

theorem storeWF_delete {st : AnnotationStore} {l : List (String × String)}
    (h : StoreWF st l) (sid : String) :
    StoreWF (st.delete_stroke sid) (l.filter (fun e => e.1 ≠ sid)) := by
  obtain ⟨h1, h2, h3, h4⟩ := h
  refine ⟨?_, ?_, ?_, pairwise_mapRemove _ _ h4⟩
  · show orderRemove sid st.stroke_order = _
    rw [h1]
    exact orderRemove_map_fst sid l
  · intro e he
    have hm := List.mem_filter.mp he
    have hne : e.1 ≠ sid := by simpa using hm.2
    obtain ⟨s, hs, hid, hpid⟩ := h2 e hm.1
    exact ⟨s, (mapGet_remove_ne hne _).trans hs, hid, hpid⟩
  · intro ks hks
    obtain ⟨hmem, hne⟩ := mem_mapRemove.mp hks
    refine List.mem_filter.mpr ⟨h3 ks hmem, ?_⟩
    simpa using hne

theorem storeWF_clear {st : AnnotationStore} {l : List (String × String)}
    (_h : StoreWF st l) : StoreWF st.clear_all [] := by
  refine ⟨rfl, ?_, ?_, List.Pairwise.nil⟩ <;> intro e he <;> cases he

theorem filter_ne_then_notMem (a : String) (L : List String) (l : List (String × String)) :
    (l.filter (fun e => e.1 ≠ a)).filter (fun e => ¬ e.1 ∈ L)
      = l.filter (fun e => ¬ e.1 ∈ (a :: L)) := by
  induction l with
  | nil => rfl
  | cons e rest ih =>
    by_cases h1 : e.1 = a
    · simp [h1, ih, Bool.and_comm]
    · by_cases h2 : e.1 ∈ L
      · simp [h1, h2, ih, Bool.and_comm]
      · simp [h1, h2, ih, Bool.and_comm]

theorem storeWF_deleteList :
    ∀ (L : List String) (st : AnnotationStore) (l : List (String × String)),
      StoreWF st l →
      StoreWF (L.foldl (fun acc id => acc.delete_stroke id) st)
        (l.filter (fun e => ¬ e.1 ∈ L)) := by
  intro L
  induction L with
  | nil =>
    intro st l h
    simpa using h
  | cons a L ih =>
    intro st l h
    have hd := storeWF_delete h a
    have hrec := ih (st.delete_stroke a) _ hd
    rw [show (a :: L).foldl (fun acc id => acc.delete_stroke id) st
        = L.foldl (fun acc id => acc.delete_stroke id) (st.delete_stroke a) from rfl]
    rw [← filter_ne_then_notMem a L l]
    exact hrec

theorem mem_keysOfParticipant {pid k : String} {m : List (String × Stroke)} :
    k ∈ keysOfParticipant pid m ↔ ∃ s, (k, s) ∈ m ∧ s.participant_id = pid := by
  induction m with
  | nil => simp [keysOfParticipant]
  | cons e rest ih =>
    obtain ⟨a, b⟩ := e
    by_cases h : b.participant_id = pid
    · rw [keysOfParticipant, if_pos h]
      constructor
      · intro hk
        rcases List.mem_cons.mp hk with rfl | hk'
        · exact ⟨b, List.mem_cons_self _ _, h⟩
        · obtain ⟨s, hs, hp⟩ := ih.mp hk'
          exact ⟨s, List.mem_cons_of_mem _ hs, hp⟩
      · rintro ⟨s, hs, hp⟩
        rcases List.mem_cons.mp hs with heq | hs'
        · injection heq with hk hs2
          exact hk ▸ List.mem_cons_self _ _
        · exact List.mem_cons_of_mem _ (ih.mpr ⟨s, hs', hp⟩)
    · rw [keysOfParticipant, if_neg h]
      rw [ih]
      constructor
      · rintro ⟨s, hs, hp⟩
        exact ⟨s, List.mem_cons_of_mem _ hs, hp⟩
      · rintro ⟨s, hs, hp⟩
        rcases List.mem_cons.mp hs with heq | hs'
        · injection heq with hk hs2
          rw [hs2] at hp
          exact absurd hp h
        · exact ⟨s, hs', hp⟩

theorem storeWF_deleteByParticipant {st : AnnotationStore} {l : List (String × String)}
    (h : StoreWF st l) (pid : String) :
    StoreWF (st.delete_by_participant pid) (l.filter (fun e => e.2 ≠ pid)) := by
  have hL := storeWF_deleteList (keysOfParticipant pid st.strokes) st l h
  have heq : l.filter (fun e => ¬ e.1 ∈ keysOfParticipant pid st.strokes)
      = l.filter (fun e => e.2 ≠ pid) := by
    apply List.filter_congr
    intro e he
    have hiff : (e.1 ∈ keysOfParticipant pid st.strokes) ↔ e.2 = pid := by
      constructor
      · intro hk
        obtain ⟨s, hs, hp⟩ := mem_keysOfParticipant.mp hk
        have hget := mem_mapGet h.2.2.2 hs
        obtain ⟨s', hs', _, hpid⟩ := h.2.1 e he
        rw [hget] at hs'
        obtain rfl := Option.some.inj hs'
        rw [← hpid, hp]
      · intro hp
        obtain ⟨s', hs', _, hpid⟩ := h.2.1 e he
        exact mem_keysOfParticipant.mpr ⟨s', mapGet_mem hs', by rw [hpid, hp]⟩
    simp [hiff]
  rw [AnnotationStore.delete_by_participant, ← heq]
  exact hL

theorem storeWF_applyOp {st : AnnotationStore} {l : List (String × String)}
    (h : StoreWF st l) (op : StoreOp) :
    StoreWF (applyOp st op) (specStep l op) := by
  cases op with
  | start sid pid tool color p => exact storeWF_start h sid pid tool color p
  | update sid ps =>
    rw [show applyOp st (StoreOp.update sid ps) = st.update_stroke sid ps from rfl,
      update_stroke_eq_modify]
    exact storeWF_modify h sid _ (fun _ => rfl) (fun _ => rfl)
  | complete sid =>
    rw [show applyOp st (StoreOp.complete sid) = st.complete_stroke sid from rfl,
      complete_stroke_eq_modify]
    exact storeWF_modify h sid _ (fun _ => rfl) (fun _ => rfl)
  | delete sid => exact storeWF_delete h sid
  | clear => exact storeWF_clear h
  | deleteByParticipant pid => exact storeWF_deleteByParticipant h pid

theorem storeWF_empty : StoreWF AnnotationStore.new [] :=
  ⟨rfl, fun e he => absurd he (List.not_mem_nil e),
    fun ks hks => absurd hks (List.not_mem_nil ks), List.Pairwise.nil⟩

theorem storeWF_run (ops : List StoreOp) :
    StoreWF (applyOps ops) (specRun ops) := by
  rw [applyOps, specRun]
  suffices h : ∀ st l, StoreWF st l →
      StoreWF (ops.foldl applyOp st) (ops.foldl specStep l) from
    h _ _ storeWF_empty
  induction ops with
  | nil => intro st l h; exact h
  | cons op rest ih => intro st l h; exact ih _ _ (storeWF_applyOp h op)

theorem filterMap_mapGet_ids (m : List (String × Stroke)) :
    ∀ ord : List String,
      (∀ id ∈ ord, ∃ s, mapGet id m = some s ∧ s.id = id) →
      (ord.filterMap (fun id => mapGet id m)).map (fun s => s.id) = ord := by
  intro ord
  induction ord with
  | nil => intro _; rfl
  | cons i rest ih =>
    intro h
    obtain ⟨s, hs, hid⟩ := h i (List.mem_cons_self _ _)
    have hstep : List.filterMap (fun id => mapGet id m) (i :: rest)
        = s :: List.filterMap (fun id => mapGet id m) rest := by
      simp [List.filterMap_cons, hs]
    rw [hstep, List.map_cons, hid,
      ih (fun id hid' => h id (List.mem_cons_of_mem _ hid'))]

theorem strokesList_map_id {st : AnnotationStore} {l : List (String × String)}
    (h : StoreWF st l) :
    st.strokesList.map (fun s => s.id) = st.stroke_order := by
  rw [AnnotationStore.strokesList]
  apply filterMap_mapGet_ids
  intro id hid
  rw [h.1] at hid
  obtain ⟨e, he, rfl⟩ := List.mem_map.mp hid
  obtain ⟨s, hs, hsid, _⟩ := h.2.1 e he
  exact ⟨s, hs, hsid⟩

/-- C3: For every sequence of Annotation Store operations (start, update,
complete, delete, clear, delete-by-participant), iterating `strokes()` yields
the strokes in exactly the order their ids were created (each `start` appends
its id), minus those subsequently deleted — deletions by id remove the id,
`clear` empties the order, and deletions by author remove the ids that author
currently owns.  `specRun` is the spec-side order computed independently of
the store representation. -/
theorem annotation_render_order (ops : List StoreOp) :
    ((applyOps ops).strokesList.map (fun s => s.id)) = (specRun ops).map Prod.fst := by
  have h := storeWF_run ops
  rw [strokesList_map_id h, h.1]

/-! ### Duplicate `start_stroke` (claim C9) -/

theorem mapRemove_of_no_key {k : String} {m : List (String × Stroke)}
    (h : ∀ e ∈ m, e.1 ≠ k) : mapRemove k m = m := by
  induction m with
  | nil => rfl
  | cons e rest ih =>
    rw [mapRemove, if_neg (h e (List.mem_cons_self _ _))]
    rw [ih (fun f hf => h f (List.mem_cons_of_mem _ hf))]

theorem length_mapRemove_present {k : String} {v : Stroke} {m : List (String × Stroke)}
    (hu : m.Pairwise (fun a b => a.1 ≠ b.1)) (hp : mapGet k m = some v) :
    (mapRemove k m).length + 1 = m.length := by
  induction m with
  | nil => simp [mapGet] at hp
  | cons e rest ih =>
    have hc := List.pairwise_cons.mp hu
    by_cases he : e.1 = k
    · rw [mapRemove, if_pos he]
      rw [mapRemove_of_no_key (fun f hf => by rw [← he]; exact (hc.1 f hf).symm)]
      simp
    · rw [mapGet, if_neg he] at hp
      rw [mapRemove, if_neg he]
      simpa using ih hc.2 hp

theorem count_filterMap_strokes (f : String → Option Stroke) (v : Stroke) :
    ∀ ord : List String,
      (ord.filterMap f).count v = (ord.filter (fun i => f i = some v)).length := by
  intro ord
  induction ord with
  | nil => rfl
  | cons i rest ih =>
    cases hf : f i with
    | none =>
      have h1 : List.filterMap f (i :: rest) = List.filterMap f rest := by
        simp [List.filterMap_cons, hf]
      have h2 : ¬ (f i = some v) := by simp [hf]
      rw [h1, List.filter_cons_of_neg (by simpa using h2), ih]
    | some s =>
      have h1 : List.filterMap f (i :: rest) = s :: List.filterMap f rest := by
        simp [List.filterMap_cons, hf]
      by_cases hsv : s = v
      · have h2 : f i = some v := by rw [hf, hsv]
        rw [h1, List.filter_cons_of_pos (by simpa using h2), hsv]
        simp [List.count_cons, ih]
      · have h2 : ¬ (f i = some v) := by simp [hf, hsv]
        rw [h1, List.filter_cons_of_neg (by simpa using h2)]
        rw [List.count_cons_of_ne (fun hh => hsv hh.symm), ih]

/-- C9: calling `start_stroke` with a stroke id already present in the store
replaces the stored stroke in the map but appends the id to the render order a
second time: `strokes()` then returns the new stroke twice while `len()` still
counts it once, and a subsequent `delete_stroke` of that id removes every
occurrence from the render order and the map. -/
theorem start_stroke_duplicate_id
    (st : AnnotationStore) (sid pid : String) (tool : AnnotationTool)
    (color : Color) (p : Point) (s0 : Stroke)
    (hpresent : mapGet sid st.strokes = some s0)
    (horder : st.stroke_order.count sid = 1)
    (hwf : ∀ ks ∈ st.strokes, ks.2.id = ks.1)
    (hu : st.strokes.Pairwise (fun a b => a.1 ≠ b.1)) :
    (st.start_stroke sid pid tool color p).get sid
        = some (Stroke.new sid pid tool color p)
    ∧ (st.start_stroke sid pid tool color p).stroke_order = st.stroke_order ++ [sid]
    ∧ (st.start_stroke sid pid tool color p).strokesList.count
        (Stroke.new sid pid tool color p) = 2
    ∧ (st.start_stroke sid pid tool color p).lenStore = st.lenStore
    ∧ ((st.start_stroke sid pid tool color p).delete_stroke sid).stroke_order.count sid = 0
    ∧ ((st.start_stroke sid pid tool color p).delete_stroke sid).get sid = none := by
  set newS := Stroke.new sid pid tool color p with hnewS
  have hget : (st.start_stroke sid pid tool color p).get sid = some newS :=
    mapGet_insert_self sid newS st.strokes
  refine ⟨hget, rfl, ?_, ?_, ?_, ?_⟩
  · -- strokes() yields the new stroke twice
    rw [AnnotationStore.strokesList, count_filterMap_strokes]
    have hpt : ∀ i : String,
        (mapGet i (st.start_stroke sid pid tool color p).strokes = some newS) ↔ i = sid := by
      intro i
      constructor
      · intro hg
        by_contra hne
        rw [show (st.start_stroke sid pid tool color p).strokes
            = mapInsert sid newS st.strokes from rfl, mapGet_insert_ne hne] at hg
        have hmem := mapGet_mem hg
        have := hwf _ hmem
        rw [hnewS] at this
        exact hne this.symm
      · intro hi
        rw [hi]
        exact mapGet_insert_self sid newS st.strokes
    have hfe : ((st.start_stroke sid pid tool color p).stroke_order.filter
          (fun i => mapGet i (st.start_stroke sid pid tool color p).strokes = some newS))
        = ((st.start_stroke sid pid tool color p).stroke_order.filter (fun i => i = sid)) := by
      apply List.filter_congr
      intro i _
      simp [hpt i]
    rw [hfe]
    have hcount : ∀ ord : List String,
        (ord.filter (fun i => i = sid)).length = ord.count sid := by
      intro ord
      induction ord with
      | nil => rfl
      | cons j rest ihc =>
        by_cases hj : j = sid
        · subst hj
          rw [List.filter_cons_of_pos (by simp), List.length_cons, ihc,
            List.count_cons_self]
        · rw [List.filter_cons_of_neg (by simpa using hj), ihc,
            List.count_cons_of_ne (fun hh => hj hh.symm)]
    rw [hcount]
    show (st.stroke_order ++ [sid]).count sid = 2
    rw [List.count_append, horder]
    simp
  · show (mapInsert sid newS st.strokes).length = st.strokes.length
    rw [mapInsert, List.length_append]
    simpa using length_mapRemove_present hu hpresent
  · rw [List.count_eq_zero]
    intro hmem
    exact (mem_orderRemove.mp hmem).2 rfl
  · exact mapGet_remove_self sid _

def c9Color : Color := ⟨255, 0, 0, 255⟩

def c9Point : Point := ⟨0, 0, 1⟩

/-- A store already holding stroke "s1" (authored by "p1"). -/
def c9Store : AnnotationStore :=
  AnnotationStore.new.start_stroke "s1" "p1" AnnotationTool.pen c9Color c9Point

/-- Witness for C9 at a concrete store: restarting "s1" with author "p2". -/
theorem start_stroke_duplicate_id_witness :
    (c9Store.start_stroke "s1" "p2" AnnotationTool.pen c9Color c9Point).get "s1"
        = some (Stroke.new "s1" "p2" AnnotationTool.pen c9Color c9Point)
    ∧ (c9Store.start_stroke "s1" "p2" AnnotationTool.pen c9Color c9Point).stroke_order
        = c9Store.stroke_order ++ ["s1"]
    ∧ (c9Store.start_stroke "s1" "p2" AnnotationTool.pen c9Color c9Point).strokesList.count
        (Stroke.new "s1" "p2" AnnotationTool.pen c9Color c9Point) = 2
    ∧ (c9Store.start_stroke "s1" "p2" AnnotationTool.pen c9Color c9Point).lenStore
        = c9Store.lenStore
    ∧ ((c9Store.start_stroke "s1" "p2" AnnotationTool.pen c9Color c9Point).delete_stroke
        "s1").stroke_order.count "s1" = 0
    ∧ ((c9Store.start_stroke "s1" "p2" AnnotationTool.pen c9Color c9Point).delete_stroke
        "s1").get "s1" = none :=
  start_stroke_duplicate_id c9Store "s1" "p2" AnnotationTool.pen c9Color c9Point
    (Stroke.new "s1" "p1" AnnotationTool.pen c9Color c9Point)
    (by decide) (by decide) (by decide) (by decide)

/-! ## Capture failure / bounded-restart state machine
(packages/core/src/capture/mod.rs, `run_capture_loop` and `restart_capture`) -/

/-- `MAX_FAILURES`: consecutive permanent failures before a restart is
triggered. -/
def MAX_FAILURES : Nat := 3

/-- `MAX_RESTART_ATTEMPTS`: restart attempts before giving up completely
(also the retry bound inside one restart procedure). -/
def MAX_RESTART_ATTEMPTS : Nat := 5

/-- `CaptureResult` delivered to the frame callback by the desktop capturer. -/
inductive CaptureResult where
  | success
  | errorTemporary
  | errorPermanent
  | errorUserStopped
deriving DecidableEq

/-- The cross-thread state of one capture session: the failure counters, the
stop/restart flags, the restart-attempt counter, and the terminal `Error`
commands the worker has emitted (their codes, in order).  `terminated` records
that the capture loop has exited. -/
structure CaptureLoopState where
  failures : Nat
  temp_error_count : Nat
  restart_attempts : Nat
  should_stop : Bool
  needs_restart : Bool
  errors_emitted : List String
  terminated : Bool
deriving DecidableEq

/-- State at the top of `run_capture_loop`, after the capturer is created. -/
def initCapture : CaptureLoopState :=
  { failures := 0, temp_error_count := 0, restart_attempts := 0,
    should_stop := false, needs_restart := false, errors_emitted := [],
    terminated := false }

/-- The frame callback of `run_capture_loop` (capture/mod.rs:716-779): early
return when stopping; a temporary error only bumps its counter; a permanent
error bumps `failures` and, at `MAX_FAILURES`, either stops permanently (if
restart attempts are exhausted) or requests a restart; a delivered frame
resets both counters. -/
def captureCallback (s : CaptureLoopState) (r : CaptureResult) : CaptureLoopState :=
  if s.should_stop then s
  else
    match r with
    | CaptureResult.errorTemporary =>
        { s with temp_error_count := s.temp_error_count + 1 }
    | CaptureResult.errorPermanent =>
        let s1 := { s with failures := s.failures + 1 }
        if s1.failures ≥ MAX_FAILURES then
          if s1.restart_attempts ≥ MAX_RESTART_ATTEMPTS then
            { s1 with should_stop := true }
          else
            { s1 with needs_restart := true }
        else s1
    | CaptureResult.errorUserStopped =>
        { s with should_stop := true }
    | CaptureResult.success =>
        { s with failures := 0, temp_error_count := 0 }

/-- `restart_capture` (capture/mod.rs:541-659): bump the restart-attempt
counter, reset both failure counters, then retry up to `MAX_RESTART_ATTEMPTS`
times to find the source in a fresh enumeration.  `present` says, per retry,
whether the source id shows up.  On total failure one terminal
`Error [restart_failed]` command is sent and the restart reports failure. -/
def restart_capture (present : List Bool) (s : CaptureLoopState) :
    Bool × CaptureLoopState :=
  let s1 := { s with restart_attempts := s.restart_attempts + 1,
                     failures := 0, temp_error_count := 0 }
  if (present.take MAX_RESTART_ATTEMPTS).any (fun b => b) then (true, s1)
  else (false, { s1 with errors_emitted := s1.errors_emitted ++ ["restart_failed"] })

/-- Input consumed by one timer tick of the capture loop: the per-retry source
presence used if a restart runs this tick, and the capture result the
requested frame's callback delivers. -/
structure TickInput where
  present : List Bool
  result : CaptureResult

/-- One timeout arm of the `loop` in `run_capture_loop` (capture/mod.rs:968-1022):
handle a pending restart (break on restart failure), break when `should_stop`
is set, otherwise request a frame whose callback processes `t.result`.
Returns `(continue?, state)`. -/
def tickStep (s : CaptureLoopState) (t : TickInput) : Bool × CaptureLoopState :=
  if s.needs_restart then
    match restart_capture t.present s with
    | (true, s1) =>
      let s2 := { s1 with needs_restart := false }
      if s2.should_stop then (false, { s2 with terminated := true })
      else (true, captureCallback s2 t.result)
    | (false, s1) => (false, { s1 with terminated := true })
  else if s.should_stop then (false, { s with terminated := true })
  else (true, captureCallback s t.result)

/-- Run the capture loop over a list of tick inputs; the `Bool` is `true` when
the loop is still running after consuming the list. -/
def runTicksB (s : CaptureLoopState) : List TickInput → Bool × CaptureLoopState
  | [] => (true, s)
  | t :: rest =>
    match tickStep s t with
    | (true, s1) => runTicksB s1 rest
    | (false, s1) => (false, s1)

/-- Final state after running the capture loop over the given ticks. -/
def runTicks (s : CaptureLoopState) (ts : List TickInput) : CaptureLoopState :=
  (runTicksB s ts).2

/-- A tick on which the callback reports a permanent error and (if a restart
runs) the source is found in re-enumeration. -/
def permTickFound : TickInput :=
  ⟨[true], CaptureResult.errorPermanent⟩

/-- A tick on which the callback reports a permanent error and the source is
never found during a restart's re-enumeration retries. -/
def permTickAbsent : TickInput :=
  ⟨[], CaptureResult.errorPermanent⟩

theorem runTicksB_append (l1 : List TickInput) :
    ∀ (s : CaptureLoopState) (l2 : List TickInput),
      runTicksB s (l1 ++ l2)
        = match runTicksB s l1 with
          | (true, s1) => runTicksB s1 l2
          | (false, s1) => (false, s1) := by
  induction l1 with
  | nil => intro s l2; rfl
  | cons t rest ih =>
    intro s l2
    rw [List.cons_append, runTicksB]
    cases h : tickStep s t with
    | mk cont s1 =>
      cases cont
      · rw [runTicksB, h]
      · rw [runTicksB, h]
        exact ih s1 l2

/-- C1 counterexample: feed the loop an unlimited run of permanent errors with
the source still found at every restart's re-enumeration.  The session does
terminate permanently at the restart-attempt bound of 5, but NO terminal Error
command is emitted at teardown — refuting the claim that exactly one terminal
error is emitted. -/
theorem capture_exhaustion_silent :
    (runTicks initCapture (List.replicate 19 permTickFound)).terminated = true
    ∧ (runTicks initCapture (List.replicate 19 permTickFound)).restart_attempts
        = MAX_RESTART_ATTEMPTS
    ∧ (runTicks initCapture (List.replicate 19 permTickFound)).errors_emitted = [] := by
  refine ⟨?_, ?_, ?_⟩ <;> decide

/-- C1 amended: under an unlimited stream of permanent capture errors, if the
source is still found at every restart re-enumeration, the session terminates
permanently after exactly the configured bound of `MAX_RESTART_ATTEMPTS = 5`
restart attempts, no terminal Error command is emitted at that teardown, and
no further input is processed afterwards (no automatic recovery).  A terminal
`restart_failed` Error command is emitted — exactly one — only when a restart
procedure fails to find the source at re-enumeration, which also terminates
the session (there after a single restart attempt). -/
theorem capture_exhaustion_bound (ts : List TickInput) :
    runTicksB initCapture (List.replicate 19 permTickFound ++ ts)
      = runTicksB initCapture (List.replicate 19 permTickFound)
    ∧ (runTicks initCapture (List.replicate 19 permTickFound)).terminated = true
    ∧ (runTicks initCapture (List.replicate 19 permTickFound)).restart_attempts
        = MAX_RESTART_ATTEMPTS
    ∧ (runTicks initCapture (List.replicate 19 permTickFound)).errors_emitted = []
    ∧ (runTicks initCapture (List.replicate 4 permTickAbsent)).terminated = true
    ∧ (runTicks initCapture (List.replicate 4 permTickAbsent)).errors_emitted
        = ["restart_failed"]
    ∧ (runTicks initCapture (List.replicate 4 permTickAbsent)).restart_attempts = 1 := by
  refine ⟨?_, ?_, ?_, ?_, ?_, ?_, ?_⟩
  · rw [runTicksB_append]
    have hb : runTicksB initCapture (List.replicate 19 permTickFound)
        = (false, runTicks initCapture (List.replicate 19 permTickFound)) := by
      rw [runTicks]
      decide
    rw [hb]
  all_goals decide

/-- C2: the capture failure counters with permanent-error threshold
`MAX_FAILURES = 3`: (1) a transient error increments only the transient
counter (failures, flags and restart count untouched); (2) a delivered frame
resets both counters; (3) from fresh counters, a restart is requested exactly
at the third consecutive permanent error — not at the first or second; (4) the
sequence permanent, permanent, success, permanent, permanent never requests a
restart and never counts a restart attempt. -/
theorem capture_failure_counters :
    (∀ s : CaptureLoopState, s.should_stop = false →
        captureCallback s CaptureResult.errorTemporary
          = { s with temp_error_count := s.temp_error_count + 1 })
    ∧ (∀ s : CaptureLoopState, s.should_stop = false →
        captureCallback s CaptureResult.success
          = { s with failures := 0, temp_error_count := 0 })
    ∧ (∀ s : CaptureLoopState, s.should_stop = false → s.needs_restart = false →
        s.failures = 0 → s.restart_attempts < MAX_RESTART_ATTEMPTS →
        ((captureCallback s CaptureResult.errorPermanent).needs_restart = false
         ∧ (captureCallback (captureCallback s CaptureResult.errorPermanent)
              CaptureResult.errorPermanent).needs_restart = false
         ∧ (captureCallback (captureCallback (captureCallback s
              CaptureResult.errorPermanent) CaptureResult.errorPermanent)
              CaptureResult.errorPermanent).needs_restart = true))
    ∧ (∀ s : CaptureLoopState, s.should_stop = false → s.needs_restart = false →
        s.failures = 0 →
        (([CaptureResult.errorPermanent, CaptureResult.errorPermanent,
           CaptureResult.success, CaptureResult.errorPermanent,
           CaptureResult.errorPermanent].foldl captureCallback s).needs_restart = false
         ∧ ([CaptureResult.errorPermanent, CaptureResult.errorPermanent,
           CaptureResult.success, CaptureResult.errorPermanent,
           CaptureResult.errorPermanent].foldl captureCallback s).restart_attempts
             = s.restart_attempts)) := by
  have hperm1 : ∀ s : CaptureLoopState, s.should_stop = false → s.failures = 0 →
      captureCallback s CaptureResult.errorPermanent = { s with failures := 1 } := by
    intro s h hf
    simp [captureCallback, h, hf, MAX_FAILURES]
  have hperm2 : ∀ s : CaptureLoopState, s.should_stop = false →
      captureCallback { s with failures := 1 } CaptureResult.errorPermanent
        = { s with failures := 2 } := by
    intro s h
    simp [captureCallback, h, MAX_FAILURES]
  refine ⟨?_, ?_, ?_, ?_⟩
  · intro s h
    simp [captureCallback, h]
  · intro s h
    simp [captureCallback, h]
  · intro s h hnr hf hra
    have hcond : ¬ (({ s with failures := 3 } : CaptureLoopState).restart_attempts
        ≥ MAX_RESTART_ATTEMPTS) := by
      show ¬ (s.restart_attempts ≥ MAX_RESTART_ATTEMPTS)
      omega
    have h3 : captureCallback { s with failures := 2 } CaptureResult.errorPermanent
        = { s with failures := 3, needs_restart := true } := by
      simp [captureCallback, h, MAX_FAILURES, hcond]
    rw [hperm1 s h hf, hperm2 s h, h3]
    exact ⟨hnr, hnr, rfl⟩
  · intro s h hnr hf
    have hsucc : captureCallback { s with failures := 2 } CaptureResult.success
        = { s with failures := 0, temp_error_count := 0 } := by
      simp [captureCallback, h]
    have hp1 : captureCallback { s with failures := 0, temp_error_count := 0 }
        CaptureResult.errorPermanent
        = { s with failures := 1, temp_error_count := 0 } := by
      simp [captureCallback, h, MAX_FAILURES]
    have hp2 : captureCallback { s with failures := 1, temp_error_count := 0 }
        CaptureResult.errorPermanent
        = { s with failures := 2, temp_error_count := 0 } := by
      simp [captureCallback, h, MAX_FAILURES]
    rw [show ([CaptureResult.errorPermanent, CaptureResult.errorPermanent,
        CaptureResult.success, CaptureResult.errorPermanent,
        CaptureResult.errorPermanent].foldl captureCallback s)
        = captureCallback (captureCallback (captureCallback (captureCallback
            (captureCallback s CaptureResult.errorPermanent)
            CaptureResult.errorPermanent) CaptureResult.success)
            CaptureResult.errorPermanent) CaptureResult.errorPermanent from rfl]
    rw [hperm1 s h hf, hperm2 s h, hsucc, hp1, hp2]
    exact ⟨hnr, rfl⟩

/-- Witness for C2 at the initial session state. -/
theorem capture_failure_counters_witness :
    (captureCallback initCapture CaptureResult.errorTemporary).temp_error_count
        = initCapture.temp_error_count + 1
    ∧ (captureCallback initCapture CaptureResult.success).failures = 0
    ∧ (captureCallback (captureCallback (captureCallback initCapture
        CaptureResult.errorPermanent) CaptureResult.errorPermanent)
        CaptureResult.errorPermanent).needs_restart = true
    ∧ ([CaptureResult.errorPermanent, CaptureResult.errorPermanent,
        CaptureResult.success, CaptureResult.errorPermanent,
        CaptureResult.errorPermanent].foldl captureCallback initCapture).needs_restart
        = false := by
  refine ⟨?_, ?_, ?_, ?_⟩
  · rw [(capture_failure_counters).1 initCapture rfl]
  · rw [(capture_failure_counters).2.1 initCapture rfl]
  · exact ((capture_failure_counters).2.2.1 initCapture rfl rfl rfl (by decide)).2.2
  · exact ((capture_failure_counters).2.2.2 initCapture rfl rfl rfl).1

/-! ## Capturer start/stop (packages/core/src/capture/mod.rs, claim C10) -/

/-- `SourceType` from lib.rs. -/
inductive SourceType where
  | screen
  | window
deriving DecidableEq

/-- `CaptureConfig` from lib.rs. -/
structure CaptureConfig where
  width : Nat
  height : Nat
  framerate : Nat
  bitrate : Nat
deriving DecidableEq

/-- `CaptureConfig::default()`. -/
def CaptureConfig.default : CaptureConfig :=
  ⟨1920, 1080, 60, 6000000⟩

/-- `CaptureError` from capture/mod.rs. -/
inductive CaptureError where
  | CapturerCreationFailed
  | NoSourcesAvailable
  | SourceNotFound (s : String)
  | CaptureFailed (s : String)
deriving DecidableEq

/-- Rust `u64::from_str` on the raw characters: optional leading `+`, then
one or more ASCII digits, value within the u64 range. -/
def parseU64 (chars : List Char) : Option Nat :=
  let t := match chars with
    | '+' :: r => r
    | _ => chars
  if t ≠ [] ∧ t.all Char.isDigit then
    let v := t.foldl (fun acc c => acc * 10 + (c.toNat - 48)) 0
    if v < 2 ^ 64 then some v else none
  else none

/-- Rust `str::split(':')`: split at every separator, keeping empty pieces. -/
def splitChar (sep : Char) : List Char → List (List Char)
  | [] => [[]]
  | c :: rest =>
    match splitChar sep rest with
    | [] => [[]]
    | h :: t => if c = sep then [] :: h :: t else (c :: h) :: t

/-- The id parse in `start_capture` (capture/mod.rs:277-282):
`source_id.split(':').nth(1).and_then(|s| s.parse().ok())`. -/
def parseSourceNum (source_id : String) : Option Nat :=
  ((splitChar ':' source_id.toList).get? 1).bind parseU64

/-- The `Capturer` struct fields relevant to its observable state: the two
`Option` members are tracked by presence. -/
structure Capturer where
  is_capturing : Bool
  current_source : Option String
  has_stream_tx : Bool
  has_capture_thread : Bool
deriving DecidableEq

/-- `Capturer::new()`. -/
def Capturer.new : Capturer :=
  ⟨false, none, false, false⟩

/-- `Capturer::stop_capture`: early return when not capturing; otherwise send
the stop signal (dropping the sender), join the worker, and clear the state. -/
def Capturer.stop_capture (c : Capturer) : Capturer :=
  if c.is_capturing = false then c
  else { is_capturing := false, current_source := none,
         has_stream_tx := false, has_capture_thread := false }

/-- `Capturer::start_capture`: stop any running capture, parse the numeric id
after the `:` separator (failing with `SourceNotFound` before anything is
created), then create the channel, spawn the worker and record the session. -/
def Capturer.start_capture (c : Capturer) (source_id : String)
    (_source_type : SourceType) (_config : CaptureConfig) :
    Capturer × Option CaptureError :=
  let c1 := if c.is_capturing then c.stop_capture else c
  match parseSourceNum source_id with
  | none => (c1, some (CaptureError.SourceNotFound source_id))
  | some _id =>
    ({ is_capturing := true, current_source := some source_id,
       has_stream_tx := true, has_capture_thread := true }, none)

/-- C10: `start_capture` with a source id lacking a parseable numeric id after
a `:` separator returns `SourceNotFound` without spawning a capture worker,
and — when no capture was running — leaves the capturer entirely unchanged
(`is_capturing` stays false, `current_source` stays what it was). -/
theorem start_capture_unparseable_id (c : Capturer) (source_id : String)
    (st : SourceType) (cfg : CaptureConfig)
    (hnc : c.is_capturing = false)
    (hparse : parseSourceNum source_id = none) :
    c.start_capture source_id st cfg = (c, some (CaptureError.SourceNotFound source_id)) := by
  rw [Capturer.start_capture]
  rw [show (if c.is_capturing then c.stop_capture else c) = c by rw [hnc]; rfl]
  rw [hparse]

/-- Witness for C10: the fresh capturer with source id "bogus". -/
theorem start_capture_unparseable_id_witness :
    Capturer.new.start_capture "bogus" SourceType.screen CaptureConfig.default
      = (Capturer.new, some (CaptureError.SourceNotFound "bogus"))
    ∧ parseSourceNum "bogus" = none
    ∧ Capturer.new.is_capturing = false
    ∧ Capturer.new.current_source = none :=
  ⟨start_capture_unparseable_id Capturer.new "bogus" SourceType.screen
      CaptureConfig.default (by decide) (by decide),
    by decide, rfl, rfl⟩

/-! ## Source enumeration with parallel thumbnails
(capture/mod.rs `enumerate_sources` / `capture_thumbnail_thread`, claim C8) -/

/-- `ScreenInfo` from lib.rs. -/
structure ScreenInfo where
  id : String
  name : String
  x : Int
  y : Int
  width : Nat
  height : Nat
  is_primary : Bool
  thumbnail : Option String
deriving DecidableEq

/-- The screen-list construction in `enumerate_sources` (capture/mod.rs
170-211): one descriptor per enumerated source, bounds defaulting to
(0,0,1920,1080), the first source marked primary, thumbnails initially
absent.  `n` is the number of screens already pushed. -/
def buildScreens (bounds : Nat → Option (Int × Int × Nat × Nat)) :
    List (Nat × String) → Nat → List ScreenInfo
  | [], _ => []
  | (id, title) :: rest, n =>
    let b := (bounds id).getD (0, 0, 1920, 1080)
    { id := "screen:" ++ toString id,
      name := if title = "" then "Display " ++ toString (n + 1) else title,
      x := b.1, y := b.2.1, width := b.2.2.1, height := b.2.2.2,
      is_primary := n == 0,
      thumbnail := none } :: buildScreens bounds rest (n + 1)

/-- Applying one `(source_id, idx, thumbnail)` result: `screens.get_mut(idx)`
sets `thumbnail = Some(thumbnail)` — with no filtering of empty sentinels. -/
def setThumb (screens : List ScreenInfo) (idx : Nat) (thumb : String) :
    List ScreenInfo :=
  match screens.get? idx with
  | some sc => screens.set idx { sc with thumbnail := some thumb }
  | none => screens

/-- The result-application loop of `enumerate_sources` (capture/mod.rs
246-253). -/
def applyThumbnails (screens : List ScreenInfo) (results : List (Nat × Nat × String)) :
    List ScreenInfo :=
  results.foldl (fun scr r => setThumb scr r.2.1 r.2.2) screens

/-- `enumerate_sources`: build the descriptors, wait for the thumbnail workers
(up to the 10 s total timeout), then apply whatever results arrived by then. -/
def enumerate_sources (bounds : Nat → Option (Int × Int × Nat × Nat))
    (sources : List (Nat × String)) (results : List (Nat × Nat × String)) :
    List ScreenInfo :=
  applyThumbnails (buildScreens bounds sources 0) results

/-- The outcome of one `capture_thumbnail_thread` worker within the timeout. -/
inductive ThumbOutcome where
  | captured (thumb : String)
  | initFailed
  | notFound
  | errorPermanent
  | stalled
deriving DecidableEq

/-- The result a thumbnail worker pushes (capture/mod.rs:356-487): a captured
thumbnail, or the empty-string sentinel on capturer-creation failure, missing
source, or permanent capture error; a stalled worker pushes nothing before the
timeout. -/
def thumbThreadResult (source_id idx : Nat) : ThumbOutcome → Option (Nat × Nat × String)
  | ThumbOutcome.captured t => some (source_id, idx, t)
  | ThumbOutcome.initFailed => some (source_id, idx, "")
  | ThumbOutcome.notFound => some (source_id, idx, "")
  | ThumbOutcome.errorPermanent => some (source_id, idx, "")
  | ThumbOutcome.stalled => none

/-- No display bounds available (the non-macOS `get_display_bounds`). -/
def noBounds : Nat → Option (Int × Int × Nat × Nat) :=
  fun _ => none

/-- The results the per-source workers have pushed by the timeout, one outcome
per source (`enum` supplies each worker's screen index). -/
def threadResults (sources : List (Nat × String)) (outcomes : List ThumbOutcome) :
    List (Nat × Nat × String) :=
  ((sources.zip outcomes).enum).filterMap
    (fun p => thumbThreadResult p.2.1.1 p.1 p.2.2)

theorem buildScreens_length (bounds : Nat → Option (Int × Int × Nat × Nat)) :
    ∀ (src : List (Nat × String)) (n : Nat),
      (buildScreens bounds src n).length = src.length := by
  intro src
  induction src with
  | nil => intro n; rfl
  | cons s rest ih =>
    intro n
    obtain ⟨id, title⟩ := s
    rw [buildScreens]
    simp [ih]

theorem setThumb_length (screens : List ScreenInfo) (idx : Nat) (t : String) :
    (setThumb screens idx t).length = screens.length := by
  rw [setThumb]
  cases hg : screens.get? idx with
  | none => rfl
  | some sc => simp

theorem applyThumbnails_length :
    ∀ (results : List (Nat × Nat × String)) (screens : List ScreenInfo),
      (applyThumbnails screens results).length = screens.length := by
  intro results
  induction results with
  | nil => intro screens; rfl
  | cons r rest ih =>
    intro screens
    rw [show applyThumbnails screens (r :: rest)
        = applyThumbnails (setThumb screens r.2.1 r.2.2) rest from rfl]
    rw [ih, setThumb_length]

/-- C8 counterexample: enumerate two sources where the second fails to
initialize its capture context.  Both descriptors are returned, but the
failing source's descriptor holds thumbnail `some ""` (the worker's
empty-string completion sentinel applied verbatim), NOT an absent thumbnail —
refuting the claimed absence for an init-failing source. -/
theorem enumerate_failed_source_empty_thumbnail :
    (enumerate_sources noBounds [(7, "A"), (9, "B")]
        (threadResults [(7, "A"), (9, "B")]
          [ThumbOutcome.captured "T", ThumbOutcome.initFailed])).length = 2
    ∧ ((enumerate_sources noBounds [(7, "A"), (9, "B")]
        (threadResults [(7, "A"), (9, "B")]
          [ThumbOutcome.captured "T", ThumbOutcome.initFailed])).get? 1).map
        (fun sc => sc.thumbnail) = some (some "")
    ∧ ¬ (((enumerate_sources noBounds [(7, "A"), (9, "B")]
        (threadResults [(7, "A"), (9, "B")]
          [ThumbOutcome.captured "T", ThumbOutcome.initFailed])).get? 1).map
        (fun sc => sc.thumbnail) = some none) := by
  refine ⟨?_, ?_, ?_⟩ <;> decide

/-- C8 amended: a descriptor is still returned for every source whatever
thumbnail results arrive within the 10 s timeout; a thumbnail result for one
index never affects another index's descriptor; in the two-source scenario the
init-failing source's descriptor carries the empty-string thumbnail `some ""`
(present but empty) while a stalled source's descriptor keeps thumbnail `none`
(absent); the healthy source's thumbnail is delivered unaffected in both
cases. -/
theorem enumerate_sources_total :
    (∀ (bounds : Nat → Option (Int × Int × Nat × Nat)) (sources : List (Nat × String))
        (results : List (Nat × Nat × String)),
        (enumerate_sources bounds sources results).length = sources.length)
    ∧ (∀ (screens : List ScreenInfo) (idx : Nat) (thumb : String) (i : Nat),
        i ≠ idx → (setThumb screens idx thumb).get? i = screens.get? i)
    ∧ ((enumerate_sources noBounds [(7, "A"), (9, "B")]
        (threadResults [(7, "A"), (9, "B")]
          [ThumbOutcome.captured "T", ThumbOutcome.initFailed])).map
        (fun sc => sc.thumbnail) = [some "T", some ""])
    ∧ ((enumerate_sources noBounds [(7, "A"), (9, "B")]
        (threadResults [(7, "A"), (9, "B")]
          [ThumbOutcome.captured "T", ThumbOutcome.stalled])).map
        (fun sc => sc.thumbnail) = [some "T", none]) := by
  refine ⟨?_, ?_, by decide, by decide⟩
  · intro bounds sources results
    rw [enumerate_sources, applyThumbnails_length, buildScreens_length]
  · intro screens idx thumb i hne
    rw [setThumb]
    cases hg : screens.get? idx with
    | none => rfl
    | some sc => exact List.get?_set_ne _ _ hne.symm

/-- Witness for C8 (amended) at concrete inputs. -/
theorem enumerate_sources_total_witness :
    (enumerate_sources noBounds [(7, "A"), (9, "B")]
        (threadResults [(7, "A"), (9, "B")]
          [ThumbOutcome.captured "T", ThumbOutcome.initFailed])).length
        = ([(7, "A"), (9, "B")] : List (Nat × String)).length
    ∧ (setThumb (buildScreens noBounds [(7, "A"), (9, "B")] 0) 1 "X").get? 0
        = (buildScreens noBounds [(7, "A"), (9, "B")] 0).get? 0 :=
  ⟨enumerate_sources_total.1 noBounds [(7, "A"), (9, "B")]
      (threadResults [(7, "A"), (9, "B")]
        [ThumbOutcome.captured "T", ThumbOutcome.initFailed]),
    enumerate_sources_total.2.1 (buildScreens noBounds [(7, "A"), (9, "B")] 0) 1 "X" 0
      (by decide)⟩

/-! ## Shared message data types (packages/core/src/lib.rs, permissions/mod.rs) -/

/-- `ConnectionState` from lib.rs (serde snake_case). -/
inductive ConnectionState where
  | disconnected
  | connecting
  | connected
  | reconnecting
deriving DecidableEq

/-- `FrameFormat` from lib.rs (serde snake_case). -/
inductive FrameFormat where
  | jpeg
  | rgba
  | nv12
deriving DecidableEq

/-- `ParticipantRole` from lib.rs (serde snake_case). -/
inductive ParticipantRole where
  | host
  | participant
deriving DecidableEq

/-- `ParticipantData` from lib.rs. -/
structure ParticipantData where
  id : String
  name : String
  is_local : Bool
  role : ParticipantRole
deriving DecidableEq

/-- `PermissionStatus` from permissions/mod.rs (serde snake_case). -/
inductive PermissionStatus where
  | granted
  | denied
  | notDetermined
  | restricted
  | notApplicable
deriving DecidableEq

/-- `PermissionState` from permissions/mod.rs. -/
structure PermissionState where
  screen_recording : PermissionStatus
  microphone : PermissionStatus
  camera : PermissionStatus
  accessibility : PermissionStatus
deriving DecidableEq

/-- `CursorStyle` from lib.rs. -/
inductive CursorStyle where
  | styleDefault
  | pen
  | highlighter
  | eraser
  | hidden
deriving DecidableEq

/-- `RemoteCursor` from lib.rs. -/
structure RemoteCursor where
  participant_id : String
  x : Rat
  y : Rat
  visible : Bool
  style : CursorStyle
  color : Color
deriving DecidableEq

/-- Modelled from the spec: `WindowInfo` is referenced by the outbound
`available_content` message and by the tests, but its definition is not under
src/ (lib.rs notes window capture was removed).  Fields follow the test
constructors: id, title, app_name, width, height. -/
structure WindowInfo where
  id : String
  title : String
  app_name : String
  width : Nat
  height : Nat
deriving DecidableEq

/-- `ScreenShareMessage` from lib.rs. -/
structure ScreenShareMessage where
  source_id : String
  source_type : SourceType
  config : CaptureConfig
deriving DecidableEq

/-- `DataTrackMessage` from socket/mod.rs (annotation sync over the data
track). -/
inductive DataTrackMessage where
  | StrokeStart (stroke_id : String) (tool : AnnotationTool) (color : Color) (point : Point)
  | StrokeUpdate (stroke_id : String) (points : List Point)
  | StrokeComplete (stroke_id : String)
  | StrokeDelete (stroke_id : String)
  | ClearAll
  | CursorMove (x y : Rat) (visible : Bool)
deriving DecidableEq

/-- `UserEvent` from lib.rs: the closed command union dispatched through the
event loop.  Byte payloads (`Vec<u8>`) are `List Nat`. -/
inductive UserEvent where
  | GetAvailableContent
  | StartScreenShare (msg : ScreenShareMessage)
  | StopScreenShare
  | ScreenShareStateChanged (is_sharing : Bool) (source_id : Option String)
  | AvailableContentReady (screens : List ScreenInfo)
  | StrokeStart (stroke_id participant_id : String) (tool : AnnotationTool)
      (color : Color) (start_point : Point)
  | StrokeUpdate (stroke_id : String) (points : List Point)
  | StrokeComplete (stroke_id : String)
  | StrokeDelete (stroke_id : String)
  | ClearAllAnnotations
  | AnnotationPermissionChanged (enabled : Bool)
  | RemoteCursorPosition (participant_id : String) (x y : Rat) (visible : Bool)
  | RemoteCursorStyle (participant_id : String) (style : CursorStyle)
  | JoinRoom (server_url token : String)
  | LeaveRoom
  | RoomConnected (room_name : String)
  | RoomDisconnected
  | ParticipantConnected (data : ParticipantData)
  | ParticipantDisconnected (data : ParticipantData)
  | ConnectionStateChanged (state : ConnectionState)
  | DataReceived (participant_id : String) (payload : List Nat)
  | ScreenSharePublished
  | ScreenShareUnpublished
  | SetMicrophoneMuted (muted : Bool)
  | SetCameraEnabled (enabled : Bool)
  | SetAudioInputDevice (device_id : String)
  | SetVideoInputDevice (device_id : String)
  | VideoFrameReady (participant_id track_id : String) (frame_data : List Nat)
      (width height : Nat) (format : FrameFormat)
  | RequestRedraw
  | SetOverlayVisible (visible : Bool)
  | UpdateOverlayBounds (x y : Int) (width height : Nat)
  | CreateOverlay
  | DestroyOverlay
  | SocketConnected
  | SocketDisconnected
  | Error (code message : String)
  | CheckPermissions
  | RequestScreenRecordingPermission
  | PermissionStateChanged (state : PermissionState)
  | Terminate
deriving DecidableEq

/-! ## IPC wire messages (packages/core/src/socket/mod.rs) -/

/-- `IncomingMessage`: messages from the WebView to Core (serde
internally-tagged, snake_case). -/
inductive IncomingMessage where
  | JoinRoom (server_url token : String)
  | LeaveRoom
  | GetAvailableContent
  | StartScreenShare (source_id : String) (source_type : SourceType)
      (config : Option CaptureConfig)
  | StopScreenShare
  | SendAnnotation (stroke_id : String) (tool : AnnotationTool) (color : Color)
      (points : List Point)
  | DeleteAnnotation (stroke_id : String)
  | ClearAnnotations
  | CursorMove (x y : Rat)
  | CursorHide
  | SetMicMuted (muted : Bool)
  | SetCameraEnabled (enabled : Bool)
  | SetAudioInputDevice (device_id : String)
  | SetVideoInputDevice (device_id : String)
  | CheckPermissions
  | RequestScreenRecordingPermission
  | Ping
  | Shutdown
deriving DecidableEq

/-- `OutgoingMessage`: messages from Core to the WebView (serde
internally-tagged, snake_case; `frame_data` base64-encoded). -/
inductive OutgoingMessage where
  | AvailableContent (screens : List ScreenInfo) (windows : List WindowInfo)
  | ParticipantJoined (participant : ParticipantData)
  | ParticipantLeft (participant_id : String)
  | ConnectionStateChanged (state : ConnectionState)
  | ScreenShareStarted (sharer_id : String)
  | ScreenShareStopped
  | VideoFrame (participant_id track_id : String) (width height : Nat)
      (timestamp : Nat) (format : FrameFormat) (frame_data : List Nat)
  | PermissionState (state : PermissionState)
  | Pong
  | Error (code message : String)
deriving DecidableEq

/-! ## JSON value tree (serde_json::Value) -/

/-- JSON values; numbers are rationals (no claim depends on float rounding). -/
inductive Json where
  | null
  | bool (b : Bool)
  | num (q : Rat)
  | str (s : String)
  | arr (xs : List Json)
  | obj (fields : List (String × Json))

/-- First field with the given key. -/
def jLookup (k : String) : List (String × Json) → Option Json
  | [] => none
  | f :: rest => if f.1 = k then some f.2 else jLookup k rest

/-- Field access on an object. -/
def jGet (j : Json) (k : String) : Option Json :=
  match j with
  | Json.obj fields => jLookup k fields
  | _ => none

/-! ### Serialization of outbound messages (serde derive, snake_case tags) -/

def connStateTag : ConnectionState → String
  | ConnectionState.disconnected => "disconnected"
  | ConnectionState.connecting => "connecting"
  | ConnectionState.connected => "connected"
  | ConnectionState.reconnecting => "reconnecting"

def frameFormatTag : FrameFormat → String
  | FrameFormat.jpeg => "jpeg"
  | FrameFormat.rgba => "rgba"
  | FrameFormat.nv12 => "nv12"

def roleTag : ParticipantRole → String
  | ParticipantRole.host => "host"
  | ParticipantRole.participant => "participant"

def permissionStatusTag : PermissionStatus → String
  | PermissionStatus.granted => "granted"
  | PermissionStatus.denied => "denied"
  | PermissionStatus.notDetermined => "not_determined"
  | PermissionStatus.restricted => "restricted"
  | PermissionStatus.notApplicable => "not_applicable"

def jOfNat (n : Nat) : Json := Json.num (n : Rat)

def jOfInt (i : Int) : Json := Json.num (i : Rat)

/-- The standard base64 alphabet. -/
def base64Chars : List Char :=
  "ABCDEFGHIJKLMNOPQRSTUVWXYZabcdefghijklmnopqrstuvwxyz0123456789+/".toList

def b64c (n : Nat) : Char := (base64Chars.get? n).getD 'A'

/-- Standard base64 with `=` padding (the `base64::STANDARD` engine used by
`base64_serde`), on bytes as `Nat < 256`. -/
def base64Encode : List Nat → List Char
  | [] => []
  | [b0] =>
    [b64c (b0 / 4 % 64), b64c (b0 % 4 * 16), '=', '=']
  | [b0, b1] =>
    [b64c (b0 / 4 % 64), b64c (b0 % 4 * 16 + b1 / 16), b64c (b1 % 16 * 4), '=']
  | b0 :: b1 :: b2 :: rest =>
    b64c (b0 / 4 % 64) :: b64c (b0 % 4 * 16 + b1 / 16) ::
      b64c (b1 % 16 * 4 + b2 / 64) :: b64c (b2 % 64) :: base64Encode rest

def base64String (bytes : List Nat) : String := String.mk (base64Encode bytes)

/-- `ScreenInfo` serialization; `thumbnail` has
`#[serde(skip_serializing_if = "Option::is_none")]`. -/
def screenInfoJson (sc : ScreenInfo) : Json :=
  Json.obj ([("id", Json.str sc.id), ("name", Json.str sc.name),
    ("x", jOfInt sc.x), ("y", jOfInt sc.y),
    ("width", jOfNat sc.width), ("height", jOfNat sc.height),
    ("is_primary", Json.bool sc.is_primary)]
    ++ (match sc.thumbnail with
        | some t => [("thumbnail", Json.str t)]
        | none => []))

def windowInfoJson (w : WindowInfo) : Json :=
  Json.obj [("id", Json.str w.id), ("title", Json.str w.title),
    ("app_name", Json.str w.app_name),
    ("width", jOfNat w.width), ("height", jOfNat w.height)]

def participantDataJson (p : ParticipantData) : Json :=
  Json.obj [("id", Json.str p.id), ("name", Json.str p.name),
    ("is_local", Json.bool p.is_local), ("role", Json.str (roleTag p.role))]

def permissionStateJson (st : PermissionState) : Json :=
  Json.obj [("screen_recording", Json.str (permissionStatusTag st.screen_recording)),
    ("microphone", Json.str (permissionStatusTag st.microphone)),
    ("camera", Json.str (permissionStatusTag st.camera)),
    ("accessibility", Json.str (permissionStatusTag st.accessibility))]

/-- serde serialization of `OutgoingMessage`: internally tagged by `"type"`
(snake_case variant name first, then the variant's fields in declaration
order). -/
def outgoingJson : OutgoingMessage → Json
  | OutgoingMessage.AvailableContent screens windows =>
    Json.obj [("type", Json.str "available_content"),
      ("screens", Json.arr (screens.map screenInfoJson)),
      ("windows", Json.arr (windows.map windowInfoJson))]
  | OutgoingMessage.ParticipantJoined p =>
    Json.obj [("type", Json.str "participant_joined"),
      ("participant", participantDataJson p)]
  | OutgoingMessage.ParticipantLeft pid =>
    Json.obj [("type", Json.str "participant_left"),
      ("participant_id", Json.str pid)]
  | OutgoingMessage.ConnectionStateChanged st =>
    Json.obj [("type", Json.str "connection_state_changed"),
      ("state", Json.str (connStateTag st))]
  | OutgoingMessage.ScreenShareStarted sid =>
    Json.obj [("type", Json.str "screen_share_started"),
      ("sharer_id", Json.str sid)]
  | OutgoingMessage.ScreenShareStopped =>
    Json.obj [("type", Json.str "screen_share_stopped")]
  | OutgoingMessage.VideoFrame pid tid w h ts fmt data =>
    Json.obj [("type", Json.str "video_frame"),
      ("participant_id", Json.str pid), ("track_id", Json.str tid),
      ("width", jOfNat w), ("height", jOfNat h), ("timestamp", jOfNat ts),
      ("format", Json.str (frameFormatTag fmt)),
      ("frame_data", Json.str (base64String data))]
  | OutgoingMessage.PermissionState st =>
    Json.obj [("type", Json.str "permission_state"),
      ("state", permissionStateJson st)]
  | OutgoingMessage.Pong =>
    Json.obj [("type", Json.str "pong")]
  | OutgoingMessage.Error code message =>
    Json.obj [("type", Json.str "error"),
      ("code", Json.str code), ("message", Json.str message)]

/-! ### Deserialization of inbound messages (serde derive) -/

def jString? : Json → Option String
  | Json.str s => some s
  | _ => none

def jBool? : Json → Option Bool
  | Json.bool b => some b
  | _ => none

/-- u32 field: an integral JSON number in range. -/
def jU32? : Json → Option Nat
  | Json.num q => if q.den = 1 ∧ 0 ≤ q.num ∧ q.num < 2 ^ 32 then some q.num.toNat else none
  | _ => none

/-- u8 field: an integral JSON number in range. -/
def jU8? : Json → Option Nat
  | Json.num q => if q.den = 1 ∧ 0 ≤ q.num ∧ q.num < 256 then some q.num.toNat else none
  | _ => none

/-- f32 field: any JSON number. -/
def jF32? : Json → Option Rat
  | Json.num q => some q
  | _ => none

def decodeTool (j : Json) : Option AnnotationTool :=
  match jString? j with
  | some "pen" => some AnnotationTool.pen
  | some "highlighter" => some AnnotationTool.highlighter
  | some "eraser" => some AnnotationTool.eraser
  | _ => none

def decodeSourceType (j : Json) : Option SourceType :=
  match jString? j with
  | some "screen" => some SourceType.screen
  | some "window" => some SourceType.window
  | _ => none

def decodeColor (j : Json) : Option Color := do
  let r ← (jGet j "r").bind jU8?
  let g ← (jGet j "g").bind jU8?
  let b ← (jGet j "b").bind jU8?
  let a ← (jGet j "a").bind jU8?
  some ⟨r, g, b, a⟩

/-- `Point` decoding; `pressure` has `#[serde(default = "default_pressure")]`
(1.0 when the field is missing). -/
def decodePoint (j : Json) : Option Point := do
  let x ← (jGet j "x").bind jF32?
  let y ← (jGet j "y").bind jF32?
  let pressure ← match jGet j "pressure" with
    | none => some (1 : Rat)
    | some pj => jF32? pj
  some ⟨x, y, pressure⟩

def decodePoints (j : Json) : Option (List Point) :=
  match j with
  | Json.arr xs => xs.mapM decodePoint
  | _ => none

def decodeCaptureConfig (j : Json) : Option CaptureConfig := do
  let w ← (jGet j "width").bind jU32?
  let h ← (jGet j "height").bind jU32?
  let fr ← (jGet j "framerate").bind jU32?
  let br ← (jGet j "bitrate").bind jU32?
  some ⟨w, h, fr, br⟩

/-- serde deserialization of `IncomingMessage`: dispatch on the `"type"` tag,
then extract the variant's fields (`config` is `#[serde(default)]`, so a
missing or null field becomes `None`). -/
def decodeIncoming (j : Json) : Option IncomingMessage :=
  match jGet j "type" with
  | some (Json.str t) =>
    if t = "join_room" then do
      let su ← (jGet j "server_url").bind jString?
      let tk ← (jGet j "token").bind jString?
      some (IncomingMessage.JoinRoom su tk)
    else if t = "leave_room" then some IncomingMessage.LeaveRoom
    else if t = "get_available_content" then some IncomingMessage.GetAvailableContent
    else if t = "start_screen_share" then do
      let sid ← (jGet j "source_id").bind jString?
      let st ← (jGet j "source_type").bind decodeSourceType
      let cfg ← match jGet j "config" with
        | none => some none
        | some Json.null => some none
        | some cj => (decodeCaptureConfig cj).map some
      some (IncomingMessage.StartScreenShare sid st cfg)
    else if t = "stop_screen_share" then some IncomingMessage.StopScreenShare
    else if t = "send_annotation" then do
      let sid ← (jGet j "stroke_id").bind jString?
      let tool ← (jGet j "tool").bind decodeTool
      let color ← (jGet j "color").bind decodeColor
      let points ← (jGet j "points").bind decodePoints
      some (IncomingMessage.SendAnnotation sid tool color points)
    else if t = "delete_annotation" then do
      let sid ← (jGet j "stroke_id").bind jString?
      some (IncomingMessage.DeleteAnnotation sid)
    else if t = "clear_annotations" then some IncomingMessage.ClearAnnotations
    else if t = "cursor_move" then do
      let x ← (jGet j "x").bind jF32?
      let y ← (jGet j "y").bind jF32?
      some (IncomingMessage.CursorMove x y)
    else if t = "cursor_hide" then some IncomingMessage.CursorHide
    else if t = "set_mic_muted" then do
      let m ← (jGet j "muted").bind jBool?
      some (IncomingMessage.SetMicMuted m)
    else if t = "set_camera_enabled" then do
      let e ← (jGet j "enabled").bind jBool?
      some (IncomingMessage.SetCameraEnabled e)
    else if t = "set_audio_input_device" then do
      let d ← (jGet j "device_id").bind jString?
      some (IncomingMessage.SetAudioInputDevice d)
    else if t = "set_video_input_device" then do
      let d ← (jGet j "device_id").bind jString?
      some (IncomingMessage.SetVideoInputDevice d)
    else if t = "check_permissions" then some IncomingMessage.CheckPermissions
    else if t = "request_screen_recording_permission" then
      some IncomingMessage.RequestScreenRecordingPermission
    else if t = "ping" then some IncomingMessage.Ping
    else if t = "shutdown" then some IncomingMessage.Shutdown
    else none
  | _ => none

/-- The match in `CoreSocket::handle_message` (socket/mod.rs:403-482):
translate a parsed message into the command sent to the dispatcher.  `Ping`
is acknowledged without any command, and a `SendAnnotation` with no points is
dropped; local strokes and cursor moves are tagged with the placeholder
participant id "local". -/
def translateIncoming : IncomingMessage → Option UserEvent
  | IncomingMessage.JoinRoom su tk => some (UserEvent.JoinRoom su tk)
  | IncomingMessage.LeaveRoom => some UserEvent.LeaveRoom
  | IncomingMessage.GetAvailableContent => some UserEvent.GetAvailableContent
  | IncomingMessage.StartScreenShare sid st cfg =>
      some (UserEvent.StartScreenShare ⟨sid, st, cfg.getD CaptureConfig.default⟩)
  | IncomingMessage.StopScreenShare => some UserEvent.StopScreenShare
  | IncomingMessage.SendAnnotation sid tool color points =>
      match points.head? with
      | some p => some (UserEvent.StrokeStart sid "local" tool color p)
      | none => none
  | IncomingMessage.DeleteAnnotation sid => some (UserEvent.StrokeDelete sid)
  | IncomingMessage.ClearAnnotations => some UserEvent.ClearAllAnnotations
  | IncomingMessage.CursorMove x y =>
      some (UserEvent.RemoteCursorPosition "local" x y true)
  | IncomingMessage.CursorHide =>
      some (UserEvent.RemoteCursorPosition "local" 0 0 false)
  | IncomingMessage.SetMicMuted m => some (UserEvent.SetMicrophoneMuted m)
  | IncomingMessage.SetCameraEnabled e => some (UserEvent.SetCameraEnabled e)
  | IncomingMessage.SetAudioInputDevice d => some (UserEvent.SetAudioInputDevice d)
  | IncomingMessage.SetVideoInputDevice d => some (UserEvent.SetVideoInputDevice d)
  | IncomingMessage.CheckPermissions => some UserEvent.CheckPermissions
  | IncomingMessage.RequestScreenRecordingPermission =>
      some UserEvent.RequestScreenRecordingPermission
  | IncomingMessage.Ping => none
  | IncomingMessage.Shutdown => some UserEvent.Terminate

/-- Processing of one inbound line by the reader task: a line that is not
valid JSON (`none`), or valid JSON that does not decode to a known message,
is logged and dropped (no command); otherwise the translation (possibly
empty, for `Ping`) is dispatched. -/
def handleLine (j : Option Json) : List UserEvent :=
  match j with
  | none => []
  | some jv =>
    match decodeIncoming jv with
    | none => []
    | some msg => (translateIncoming msg).toList

/-! ## The reader task (socket/mod.rs run_server, claim C6) -/

/-- What one `read_line` call produces: a line (with its parse result — `none`
when the bytes are not valid JSON), end of stream, or an I/O error. -/
inductive ReadEvent where
  | line (j : Option Json)
  | eof
  | ioErr

/-- Why the reader loop stopped consuming input.  `stillOpen` means the input
list ran out with the loop still blocked on the next read (it is ended from
outside only by the explicit shutdown abort). -/
inductive ReaderExit where
  | stillOpen
  | eofClosed
  | ioErrClosed
deriving DecidableEq

/-- The reader loop (socket/mod.rs:265-282): each line is handed to
`handle_message`, whose failure is only logged; the loop breaks on `Ok(0)`
(EOF) or a read error. -/
def readerRun : List ReadEvent → List UserEvent × ReaderExit
  | [] => ([], ReaderExit.stillOpen)
  | ReadEvent.line j :: rest =>
    (handleLine j ++ (readerRun rest).1, (readerRun rest).2)
  | ReadEvent.eof :: _ => ([], ReaderExit.eofClosed)
  | ReadEvent.ioErr :: _ => ([], ReaderExit.ioErrClosed)

theorem readerRun_lines (js : List (Option Json)) (tail : List ReadEvent) :
    readerRun (js.map ReadEvent.line ++ tail)
      = (js.flatMap handleLine ++ (readerRun tail).1, (readerRun tail).2) := by
  induction js with
  | nil => simp
  | cons j rest ih =>
    rw [List.map_cons, List.cons_append, readerRun, ih]
    simp [List.append_assoc]

/-- C6: every inbound line that is not valid JSON for a known message type is
dropped without closing the connection — after any sequence of lines
(malformed or not) the reader is still consuming, and each line contributes
exactly its own translation, in order, unaffected by earlier malformed lines;
the loop exits only on EOF or an I/O read error (or the external shutdown
abort, which is outside this loop). -/
theorem reader_drops_malformed_lines (js : List (Option Json)) :
    readerRun (js.map ReadEvent.line) = (js.flatMap handleLine, ReaderExit.stillOpen)
    ∧ readerRun (js.map ReadEvent.line ++ [ReadEvent.eof])
        = (js.flatMap handleLine, ReaderExit.eofClosed)
    ∧ readerRun (js.map ReadEvent.line ++ [ReadEvent.ioErr])
        = (js.flatMap handleLine, ReaderExit.ioErrClosed)
    ∧ handleLine none = [] := by
  refine ⟨?_, ?_, ?_, rfl⟩
  · have h := readerRun_lines js []
    simpa [readerRun] using h
  · simp [readerRun_lines, readerRun]
  · simp [readerRun_lines, readerRun]

/-! ## Message taxonomy (claim C7) -/

/-- The documented snake_case name of each outbound message type
(spec section 4.3: available content, participant joined/left,
connection-state changed, share started/stopped, video-frame relay,
permission state, pong, error). -/
def docOutName : OutgoingMessage → String
  | OutgoingMessage.AvailableContent _ _ => "available_content"
  | OutgoingMessage.ParticipantJoined _ => "participant_joined"
  | OutgoingMessage.ParticipantLeft _ => "participant_left"
  | OutgoingMessage.ConnectionStateChanged _ => "connection_state_changed"
  | OutgoingMessage.ScreenShareStarted _ => "screen_share_started"
  | OutgoingMessage.ScreenShareStopped => "screen_share_stopped"
  | OutgoingMessage.VideoFrame _ _ _ _ _ _ _ => "video_frame"
  | OutgoingMessage.PermissionState _ => "permission_state"
  | OutgoingMessage.Pong => "pong"
  | OutgoingMessage.Error _ _ => "error"

/-- C7 counterexample: the documented inbound type `ping` deserializes, but
`handle_message` acknowledges it without translating it into any command (and
no `pong` is produced) — refuting "every documented inbound type is
translated to the correct command". -/
theorem ping_yields_no_command :
    decodeIncoming (Json.obj [("type", Json.str "ping")]) = some IncomingMessage.Ping
    ∧ translateIncoming IncomingMessage.Ping = none
    ∧ handleLine (some (Json.obj [("type", Json.str "ping")])) = [] := by
  refine ⟨?_, rfl, ?_⟩ <;> decide

/-- C7 amended: every outbound message variant serializes with a `"type"`
field holding its documented snake_case name; every documented inbound type
except `ping` deserializes and is translated to its corresponding command
(local annotation and cursor messages are tagged with the placeholder
participant id "local", and a start-share without config gets the default
config); `ping` deserializes but is acknowledged without emitting a
command. -/
theorem message_taxonomy :
    (∀ m : OutgoingMessage, jGet (outgoingJson m) "type" = some (Json.str (docOutName m)))
    ∧ handleLine (some (Json.obj [("type", Json.str "join_room"),
        ("server_url", Json.str "wss://s"), ("token", Json.str "tok")]))
        = [UserEvent.JoinRoom "wss://s" "tok"]
    ∧ handleLine (some (Json.obj [("type", Json.str "leave_room")]))
        = [UserEvent.LeaveRoom]
    ∧ handleLine (some (Json.obj [("type", Json.str "get_available_content")]))
        = [UserEvent.GetAvailableContent]
    ∧ handleLine (some (Json.obj [("type", Json.str "start_screen_share"),
        ("source_id", Json.str "screen:1"), ("source_type", Json.str "screen")]))
        = [UserEvent.StartScreenShare ⟨"screen:1", SourceType.screen, CaptureConfig.default⟩]
    ∧ handleLine (some (Json.obj [("type", Json.str "stop_screen_share")]))
        = [UserEvent.StopScreenShare]
    ∧ handleLine (some (Json.obj [("type", Json.str "send_annotation"),
        ("stroke_id", Json.str "s1"), ("tool", Json.str "pen"),
        ("color", Json.obj [("r", Json.num 255), ("g", Json.num 0),
          ("b", Json.num 0), ("a", Json.num 255)]),
        ("points", Json.arr [Json.obj [("x", Json.num 0), ("y", Json.num 0)]])]))
        = [UserEvent.StrokeStart "s1" "local" AnnotationTool.pen
            ⟨255, 0, 0, 255⟩ ⟨0, 0, 1⟩]
    ∧ handleLine (some (Json.obj [("type", Json.str "delete_annotation"),
        ("stroke_id", Json.str "s1")]))
        = [UserEvent.StrokeDelete "s1"]
    ∧ handleLine (some (Json.obj [("type", Json.str "clear_annotations")]))
        = [UserEvent.ClearAllAnnotations]
    ∧ handleLine (some (Json.obj [("type", Json.str "cursor_move"),
        ("x", Json.num 0), ("y", Json.num 0)]))
        = [UserEvent.RemoteCursorPosition "local" 0 0 true]
    ∧ handleLine (some (Json.obj [("type", Json.str "cursor_hide")]))
        = [UserEvent.RemoteCursorPosition "local" 0 0 false]
    ∧ handleLine (some (Json.obj [("type", Json.str "set_mic_muted"),
        ("muted", Json.bool true)]))
        = [UserEvent.SetMicrophoneMuted true]
    ∧ handleLine (some (Json.obj [("type", Json.str "set_camera_enabled"),
        ("enabled", Json.bool false)]))
        = [UserEvent.SetCameraEnabled false]
    ∧ handleLine (some (Json.obj [("type", Json.str "set_audio_input_device"),
        ("device_id", Json.str "mic0")]))
        = [UserEvent.SetAudioInputDevice "mic0"]
    ∧ handleLine (some (Json.obj [("type", Json.str "set_video_input_device"),
        ("device_id", Json.str "cam0")]))
        = [UserEvent.SetVideoInputDevice "cam0"]
    ∧ handleLine (some (Json.obj [("type", Json.str "check_permissions")]))
        = [UserEvent.CheckPermissions]
    ∧ handleLine (some (Json.obj [("type",
        Json.str "request_screen_recording_permission")]))
        = [UserEvent.RequestScreenRecordingPermission]
    ∧ handleLine (some (Json.obj [("type", Json.str "shutdown")]))
        = [UserEvent.Terminate]
    ∧ decodeIncoming (Json.obj [("type", Json.str "ping")]) = some IncomingMessage.Ping
    ∧ handleLine (some (Json.obj [("type", Json.str "ping")])) = [] := by
  refine ⟨fun m => by cases m <;> rfl, ?_, ?_, ?_, ?_, ?_, ?_, ?_, ?_, ?_, ?_, ?_,
    ?_, ?_, ?_, ?_, ?_, ?_, ?_, ?_⟩ <;> decide

/-! ## Outbound socket delivery (socket/mod.rs run_server, claim C5) -/

/-- The outbound path's state: the unbounded mpsc channel feeding the writer,
and the currently connected client with the messages written to it so far
(`none`: no client, the server is blocked in `accept`). -/
structure SocketChannelState where
  queue : List OutgoingMessage
  client : Option (List OutgoingMessage)
deriving DecidableEq

/-- One event on the outbound path. -/
inductive SocketEvent where
  | send (m : OutgoingMessage)
  | connect
  | deliver
  | disconnect

/-- The outbound-path transitions of `run_server` (socket/mod.rs:236-314):
`CoreSocket::send` pushes onto the unbounded channel unconditionally; `accept`
admits a client only while none is being served; the writer loop pops the next
queued message and writes it to the connected client; a dead client is only
discovered when a write fails, which consumes (and loses) that message and
returns the server to `accept`. -/
def socketStep (st : SocketChannelState) : SocketEvent → SocketChannelState
  | SocketEvent.send m => { st with queue := st.queue ++ [m] }
  | SocketEvent.connect =>
    match st.client with
    | none => { st with client := some [] }
    | some _ => st
  | SocketEvent.deliver =>
    match st.client, st.queue with
    | some received, m :: rest => { queue := rest, client := some (received ++ [m]) }
    | _, _ => st
  | SocketEvent.disconnect =>
    match st.client, st.queue with
    | some _, _ :: rest => { queue := rest, client := none }
    | _, _ => st

/-- Run the outbound path over an event trace. -/
def socketRun (st : SocketChannelState) (evs : List SocketEvent) : SocketChannelState :=
  evs.foldl socketStep st

/-- C5 counterexample: a message submitted via `send()` while no client is
connected is NOT dropped — it sits in the unbounded channel and is delivered
to the client that connects later, refuting "dropped and never delivered to a
client that connects later". -/
theorem socket_buffers_across_connect :
    socketRun ⟨[], none⟩ [SocketEvent.send OutgoingMessage.Pong,
        SocketEvent.connect, SocketEvent.deliver]
      = ⟨[], some [OutgoingMessage.Pong]⟩ := by
  decide

/-- C5 amended: messages submitted while no client is connected are buffered
(in submission order) in the unbounded channel and are delivered to the next
client that connects; while a client is connected, queued messages are
delivered strictly in submission order (after n writer steps the client has
received exactly the first n queued messages). -/
theorem socket_delivery_order (msgs pending : List OutgoingMessage) :
    socketRun ⟨pending, none⟩ (msgs.map SocketEvent.send) = ⟨pending ++ msgs, none⟩
    ∧ (∀ (received : List OutgoingMessage) (n : Nat),
        socketRun ⟨msgs, some received⟩ (List.replicate n SocketEvent.deliver)
          = ⟨msgs.drop n, some (received ++ msgs.take n)⟩) := by
  constructor
  · induction msgs generalizing pending with
    | nil => simp [socketRun]
    | cons m rest ih =>
      rw [List.map_cons, show socketRun ⟨pending, none⟩
          (SocketEvent.send m :: rest.map SocketEvent.send)
          = socketRun ⟨pending ++ [m], none⟩ (rest.map SocketEvent.send) from rfl]
      rw [ih]
      simp
  · intro received n
    induction n generalizing msgs received with
    | zero => simp [socketRun]
    | succ k ih =>
      rw [List.replicate_succ]
      cases msgs with
      | nil =>
        rw [show socketRun ⟨[], some received⟩
            (SocketEvent.deliver :: List.replicate k SocketEvent.deliver)
            = socketRun ⟨[], some received⟩ (List.replicate k SocketEvent.deliver) from rfl]
        rw [ih]
        simp
      | cons m rest =>
        rw [show socketRun ⟨m :: rest, some received⟩
            (SocketEvent.deliver :: List.replicate k SocketEvent.deliver)
            = socketRun ⟨rest, some (received ++ [m])⟩
                (List.replicate k SocketEvent.deliver) from rfl]
        rw [ih]
        simp

/-! ## The dispatcher (packages/core/src/lib.rs `Application::handle_user_event`,
claim C4)

The dispatcher is embedded as a function on the `Application` fields it
mutates.  Calls into external subsystems (graphics overlay, LiveKit room,
OS permissions, worker spawns) act only on resources outside this state; the
events and socket messages those arms emit synchronously are modelled, and
purely external inputs (the wall clock, the OS permission state, the byte
parser for data-track payloads) are supplied by an oracle record. -/

/-- Generic association-list get (for the `HashMap`s of `Application`). -/
def alGet {α : Type} (k : String) : List (String × α) → Option α
  | [] => none
  | e :: rest => if e.1 = k then some e.2 else alGet k rest

/-- Generic association-list insert-or-replace. -/
def alInsert {α : Type} (k : String) (v : α) : List (String × α) → List (String × α)
  | [] => [(k, v)]
  | e :: rest => if e.1 = k then (k, v) :: rest else e :: alInsert k v rest

/-- Generic association-list removal. -/
def alRemove {α : Type} (k : String) : List (String × α) → List (String × α)
  | [] => []
  | e :: rest => if e.1 = k then alRemove k rest else e :: alRemove k rest

/-- `Color::PALETTE` from lib.rs. -/
def colorPalette : List Color :=
  [⟨255, 87, 87, 255⟩, ⟨87, 166, 255, 255⟩, ⟨87, 255, 144, 255⟩,
   ⟨255, 193, 87, 255⟩, ⟨200, 87, 255, 255⟩, ⟨255, 87, 200, 255⟩]

/-- `get_participant_color`: palette color by the participant's position among
the keys (a hash map has no stable order; the association order stands in for
it), defaulting to position 0. -/
def get_participant_color (participants : List (String × ParticipantData))
    (pid : String) : Color :=
  let index := (((participants.map Prod.fst).indexOf? pid).getD 0)
  (colorPalette.get? (index % colorPalette.length)).getD ⟨255, 87, 87, 255⟩

/-- External inputs consumed synchronously by dispatcher arms. -/
structure ExtOracle where
  parseDataTrack : List Nat → Option DataTrackMessage
  now_millis : Nat
  permission_state_now : PermissionState

/-- The `Application` state owned by the dispatch loop, plus its observable
effects: socket messages sent (`out`, when the socket slot is filled),
self-scheduled follow-up commands (`enqueued`), whether `elwt.exit()` was
called (`exited`) and whether `handle_shutdown` ran (`shutdown_done`). -/
structure AppState where
  annotation_store : AnnotationStore
  remote_cursors : List (String × RemoteCursor)
  capturer : Capturer
  is_sharing : Bool
  shared_source_id : Option String
  local_participant : Option ParticipantData
  participants : List (String × ParticipantData)
  connection_state : ConnectionState
  annotations_enabled : Bool
  socket : Bool
  out : List OutgoingMessage
  enqueued : List UserEvent
  exited : Bool
  shutdown_done : Bool
deriving DecidableEq

/-- `Application::new` followed by `init_socket`. -/
def initialApp : AppState :=
  { annotation_store := AnnotationStore.new, remote_cursors := [],
    capturer := Capturer.new, is_sharing := false, shared_source_id := none,
    local_participant := none, participants := [],
    connection_state := ConnectionState.disconnected, annotations_enabled := true,
    socket := true, out := [], enqueued := [], exited := false,
    shutdown_done := false }

/-- The `send_*` helpers: `if let Some(socket) = ... socket.send(msg)`. -/
def sendMsg (s : AppState) (m : OutgoingMessage) : AppState :=
  if s.socket then { s with out := s.out ++ [m] } else s

/-- `event_loop_proxy.send_event`. -/
def enqueueEvent (s : AppState) (e : UserEvent) : AppState :=
  { s with enqueued := s.enqueued ++ [e] }

/-- `send_screen_share_state` (lib.rs:1112-1126). -/
def send_screen_share_state (s : AppState) : AppState :=
  if s.is_sharing then
    sendMsg s (OutgoingMessage.ScreenShareStarted
      ((s.local_participant.map (fun p => p.id)).getD ""))
  else sendMsg s OutgoingMessage.ScreenShareStopped

/-- thiserror `Display` for `CaptureError` (capture/mod.rs:89-102). -/
def captureErrorMessage : CaptureError → String
  | CaptureError.CapturerCreationFailed => "Failed to create DesktopCapturer"
  | CaptureError.NoSourcesAvailable => "Capture source list is empty"
  | CaptureError.SourceNotFound s => "Selected source not found: " ++ s
  | CaptureError.CaptureFailed s => "Capture failed: " ++ s

/-- `handle_start_screen_share` (lib.rs:902-953), with no room connected
(the modelled room slot is empty, so capture is local-only): start the
capture and schedule either the state-changed notification or the error
command. -/
def handle_start_screen_share (s : AppState) (msg : ScreenShareMessage) : AppState :=
  match s.capturer.start_capture msg.source_id msg.source_type msg.config with
  | (c, none) =>
    enqueueEvent { s with capturer := c }
      (UserEvent.ScreenShareStateChanged true (some msg.source_id))
  | (c, some e) =>
    enqueueEvent { s with capturer := c }
      (UserEvent.Error "capture_failed" (captureErrorMessage e))

/-- `handle_stop_screen_share` (lib.rs:955-972). -/
def handle_stop_screen_share (s : AppState) : AppState :=
  enqueueEvent { s with capturer := s.capturer.stop_capture }
    (UserEvent.ScreenShareStateChanged false none)

/-- `handle_join_room` (lib.rs:978-1021): report Connecting and spawn the
blocking connect on a worker thread — that thread's results arrive later as
separate commands. -/
def handle_join_room (s : AppState) : AppState :=
  enqueueEvent s (UserEvent.ConnectionStateChanged ConnectionState.connecting)

/-- `handle_leave_room` (lib.rs:1023-1036). -/
def handle_leave_room (s : AppState) : AppState :=
  enqueueEvent
    { s with participants := [], remote_cursors := [],
             connection_state := ConnectionState.disconnected }
    (UserEvent.ConnectionStateChanged ConnectionState.disconnected)

/-- `handle_data_received` (lib.rs:1038-1081): parse the payload as a
data-track message and dispatch the corresponding command. -/
def handle_data_received (ext : ExtOracle) (s : AppState) (pid : String)
    (payload : List Nat) : AppState :=
  match ext.parseDataTrack payload with
  | some (DataTrackMessage.StrokeStart sid tool color point) =>
    enqueueEvent s (UserEvent.StrokeStart sid pid tool color point)
  | some (DataTrackMessage.StrokeUpdate sid points) =>
    enqueueEvent s (UserEvent.StrokeUpdate sid points)
  | some (DataTrackMessage.StrokeComplete sid) =>
    enqueueEvent s (UserEvent.StrokeComplete sid)
  | some (DataTrackMessage.StrokeDelete sid) =>
    enqueueEvent s (UserEvent.StrokeDelete sid)
  | some DataTrackMessage.ClearAll =>
    enqueueEvent s UserEvent.ClearAllAnnotations
  | some (DataTrackMessage.CursorMove x y visible) =>
    enqueueEvent s (UserEvent.RemoteCursorPosition pid x y visible)
  | none => s

/-- `handle_shutdown` (lib.rs:1083-1100): stop capture, drop the room, take
and shut down the socket. -/
def handle_shutdown (s : AppState) : AppState :=
  { s with capturer := s.capturer.stop_capture, socket := false,
           shutdown_done := true }

/-- `Application::handle_user_event` (lib.rs:521-815), projected onto the
modelled state.  Arms that only call into external subsystems (overlay
window and graphics context, room-service media controls, log-only arms,
worker spawns) leave the modelled state unchanged. -/
def handleUserEvent (ext : ExtOracle) (s : AppState) : UserEvent → AppState
  | UserEvent.GetAvailableContent => s
  | UserEvent.StartScreenShare msg => handle_start_screen_share s msg
  | UserEvent.StopScreenShare => handle_stop_screen_share s
  | UserEvent.ScreenShareStateChanged is_sharing source_id =>
    if is_sharing then
      enqueueEvent (send_screen_share_state
        { s with is_sharing := is_sharing, shared_source_id := source_id })
        UserEvent.CreateOverlay
    else
      enqueueEvent (send_screen_share_state
        { s with is_sharing := is_sharing, shared_source_id := source_id })
        UserEvent.DestroyOverlay
  | UserEvent.AvailableContentReady screens =>
    sendMsg s (OutgoingMessage.AvailableContent screens [])
  | UserEvent.StrokeStart sid pid tool color p =>
    enqueueEvent
      { s with annotation_store := s.annotation_store.start_stroke sid pid tool color p }
      UserEvent.RequestRedraw
  | UserEvent.StrokeUpdate sid points =>
    enqueueEvent
      { s with annotation_store := s.annotation_store.update_stroke sid points }
      UserEvent.RequestRedraw
  | UserEvent.StrokeComplete sid =>
    enqueueEvent { s with annotation_store := s.annotation_store.complete_stroke sid }
      UserEvent.RequestRedraw
  | UserEvent.StrokeDelete sid =>
    enqueueEvent { s with annotation_store := s.annotation_store.delete_stroke sid }
      UserEvent.RequestRedraw
  | UserEvent.ClearAllAnnotations =>
    enqueueEvent { s with annotation_store := s.annotation_store.clear_all }
      UserEvent.RequestRedraw
  | UserEvent.AnnotationPermissionChanged enabled =>
    { s with annotations_enabled := enabled }
  | UserEvent.RemoteCursorPosition pid x y visible =>
    (match alGet pid s.remote_cursors with
     | some c =>
       enqueueEvent
         { s with remote_cursors :=
             alInsert pid { c with x := x, y := y, visible := visible } s.remote_cursors }
         UserEvent.RequestRedraw
     | none =>
       let newCursor : RemoteCursor :=
         { participant_id := pid, x := x, y := y, visible := visible,
           style := CursorStyle.styleDefault,
           color := get_participant_color s.participants pid }
       enqueueEvent
         { s with remote_cursors := alInsert pid newCursor s.remote_cursors }
         UserEvent.RequestRedraw)
  | UserEvent.RemoteCursorStyle pid style =>
    (match alGet pid s.remote_cursors with
     | some c =>
       enqueueEvent
         { s with remote_cursors := alInsert pid { c with style := style } s.remote_cursors }
         UserEvent.RequestRedraw
     | none => s)
  | UserEvent.JoinRoom _ _ => handle_join_room s
  | UserEvent.LeaveRoom => handle_leave_room s
  | UserEvent.RoomConnected _ =>
    sendMsg { s with connection_state := ConnectionState.connected }
      (OutgoingMessage.ConnectionStateChanged ConnectionState.connected)
  | UserEvent.RoomDisconnected => s
  | UserEvent.ParticipantConnected data =>
    sendMsg { s with participants := alInsert data.id data s.participants }
      (OutgoingMessage.ParticipantJoined data)
  | UserEvent.ParticipantDisconnected data =>
    enqueueEvent
      (sendMsg
        { s with participants := alRemove data.id s.participants,
                 remote_cursors := alRemove data.id s.remote_cursors }
        (OutgoingMessage.ParticipantLeft data.id))
      UserEvent.RequestRedraw
  | UserEvent.ConnectionStateChanged st =>
    sendMsg { s with connection_state := st }
      (OutgoingMessage.ConnectionStateChanged st)
  | UserEvent.DataReceived pid payload => handle_data_received ext s pid payload
  | UserEvent.ScreenSharePublished => s
  | UserEvent.ScreenShareUnpublished => s
  | UserEvent.SetMicrophoneMuted _ => s
  | UserEvent.SetCameraEnabled _ => s
  | UserEvent.SetAudioInputDevice _ => s
  | UserEvent.SetVideoInputDevice _ => s
  | UserEvent.VideoFrameReady pid tid data w h fmt =>
    sendMsg s (OutgoingMessage.VideoFrame pid tid w h ext.now_millis fmt data)
  | UserEvent.RequestRedraw => s
  | UserEvent.SetOverlayVisible _ => s
  | UserEvent.UpdateOverlayBounds _ _ _ _ => s
  | UserEvent.CreateOverlay => s
  | UserEvent.DestroyOverlay => s
  | UserEvent.SocketConnected => s
  | UserEvent.SocketDisconnected => s
  | UserEvent.Error code message =>
    sendMsg s (OutgoingMessage.Error code message)
  | UserEvent.CheckPermissions =>
    enqueueEvent s (UserEvent.PermissionStateChanged ext.permission_state_now)
  | UserEvent.RequestScreenRecordingPermission => s
  | UserEvent.PermissionStateChanged st =>
    sendMsg s (OutgoingMessage.PermissionState st)
  | UserEvent.Terminate => { handle_shutdown s with exited := true }

/-- `run()`: drain commands in arrival order until an event processes
`elwt.exit()`. -/
def runDispatch (ext : ExtOracle) : AppState → List UserEvent → AppState
  | s, [] => s
  | s, e :: rest =>
    if (handleUserEvent ext s e).exited then handleUserEvent ext s e
    else runDispatch ext (handleUserEvent ext s e) rest

theorem sendMsg_exited (s : AppState) (m : OutgoingMessage) :
    (sendMsg s m).exited = s.exited := by
  rw [sendMsg]
  split <;> rfl

theorem enqueueEvent_exited (s : AppState) (e : UserEvent) :
    (enqueueEvent s e).exited = s.exited := rfl

theorem send_screen_share_state_exited (s : AppState) :
    (send_screen_share_state s).exited = s.exited := by
  rw [send_screen_share_state]
  split <;> rw [sendMsg_exited]

theorem stop_capture_not_capturing (c : Capturer) :
    c.stop_capture.is_capturing = false := by
  rw [Capturer.stop_capture]
  split
  · assumption
  · rfl

theorem handleUserEvent_exited (ext : ExtOracle) (s : AppState) (e : UserEvent)
    (hne : e ≠ UserEvent.Terminate) :
    (handleUserEvent ext s e).exited = s.exited := by
  cases e
  case Terminate => exact absurd rfl hne
  case StartScreenShare msg =>
    show (handle_start_screen_share s msg).exited = s.exited
    rw [handle_start_screen_share]
    cases hc : s.capturer.start_capture msg.source_id msg.source_type msg.config with
    | mk c err => cases err <;> rfl
  case ScreenShareStateChanged a b =>
    cases a
    · show (enqueueEvent (send_screen_share_state _) _).exited = s.exited
      rw [enqueueEvent_exited, send_screen_share_state_exited]
    · show (enqueueEvent (send_screen_share_state _) _).exited = s.exited
      rw [enqueueEvent_exited, send_screen_share_state_exited]
  case RemoteCursorPosition pid x y visible =>
    show (handleUserEvent ext s (UserEvent.RemoteCursorPosition pid x y visible)).exited
      = s.exited
    rw [handleUserEvent]
    cases alGet pid s.remote_cursors <;> rfl
  case RemoteCursorStyle pid style =>
    show (handleUserEvent ext s (UserEvent.RemoteCursorStyle pid style)).exited = s.exited
    rw [handleUserEvent]
    cases alGet pid s.remote_cursors <;> rfl
  case DataReceived pid payload =>
    show (handle_data_received ext s pid payload).exited = s.exited
    rw [handle_data_received]
    cases hp : ext.parseDataTrack payload with
    | none => rfl
    | some m => cases m <;> rfl
  case AvailableContentReady screens => exact sendMsg_exited _ _
  case RoomConnected r => exact sendMsg_exited _ _
  case ParticipantConnected d => exact sendMsg_exited _ _
  case ParticipantDisconnected d => exact sendMsg_exited _ _
  case ConnectionStateChanged st => exact sendMsg_exited _ _
  case VideoFrameReady a b c d f g => exact sendMsg_exited _ _
  case Error c m => exact sendMsg_exited _ _
  case PermissionStateChanged st => exact sendMsg_exited _ _
  all_goals rfl

/-- C4: processing any command other than `Terminate` never stops the
dispatch loop; every `Error` command is reported out over the IPC socket
(when the socket slot is initialized) and leaves the process running;
processing `Terminate` performs shutdown (capture stopped, socket slot shut
down) and exits the loop; hence a queue containing no `Terminate` is drained
completely with the loop still running. -/
theorem dispatch_only_terminate_exits :
    (∀ (ext : ExtOracle) (s : AppState) (e : UserEvent), e ≠ UserEvent.Terminate →
        (handleUserEvent ext s e).exited = s.exited)
    ∧ (∀ (ext : ExtOracle) (s : AppState) (code msg : String), s.socket = true →
        (handleUserEvent ext s (UserEvent.Error code msg)).out
          = s.out ++ [OutgoingMessage.Error code msg])
    ∧ (∀ (ext : ExtOracle) (s : AppState),
        (handleUserEvent ext s UserEvent.Terminate).exited = true
        ∧ (handleUserEvent ext s UserEvent.Terminate).shutdown_done = true
        ∧ (handleUserEvent ext s UserEvent.Terminate).socket = false
        ∧ (handleUserEvent ext s UserEvent.Terminate).capturer.is_capturing = false)
    ∧ (∀ (ext : ExtOracle) (s : AppState) (events : List UserEvent),
        (∀ e ∈ events, e ≠ UserEvent.Terminate) → s.exited = false →
        (runDispatch ext s events).exited = false) := by
  refine ⟨handleUserEvent_exited, ?_, ?_, ?_⟩
  · intro ext s code msg hs
    show (sendMsg s (OutgoingMessage.Error code msg)).out = _
    rw [sendMsg, if_pos hs]
  · intro ext s
    exact ⟨rfl, rfl, rfl, stop_capture_not_capturing s.capturer⟩
  · intro ext s events
    induction events generalizing s with
    | nil => intro _ hx; exact hx
    | cons e rest ih =>
      intro hall hx
      have he : (handleUserEvent ext s e).exited = false := by
        rw [handleUserEvent_exited ext s e (hall e (List.mem_cons_self _ _)), hx]
      rw [runDispatch, if_neg (by simp [he])]
      exact ih _ (fun e' h' => hall e' (List.mem_cons_of_mem _ h')) he

/-- A concrete oracle for the witness. -/
def demoExt : ExtOracle :=
  ⟨fun _ => none, 0,
    ⟨PermissionStatus.granted, PermissionStatus.granted,
     PermissionStatus.granted, PermissionStatus.notApplicable⟩⟩

/-- Witness for C4 at the initial application state. -/
theorem dispatch_only_terminate_exits_witness :
    (handleUserEvent demoExt initialApp UserEvent.LeaveRoom).exited = initialApp.exited
    ∧ (handleUserEvent demoExt initialApp
        (UserEvent.Error "capture_failed" "boom")).out
        = initialApp.out ++ [OutgoingMessage.Error "capture_failed" "boom"]
    ∧ (handleUserEvent demoExt initialApp UserEvent.Terminate).exited = true
    ∧ (runDispatch demoExt initialApp [UserEvent.LeaveRoom]).exited = false :=
  ⟨dispatch_only_terminate_exits.1 demoExt initialApp UserEvent.LeaveRoom (by decide),
   dispatch_only_terminate_exits.2.1 demoExt initialApp "capture_failed" "boom" rfl,
   (dispatch_only_terminate_exits.2.2.1 demoExt initialApp).1,
   dispatch_only_terminate_exits.2.2.2 demoExt initialApp [UserEvent.LeaveRoom]
     (by decide) rfl⟩

end Etch
